import Mathlib

/-!
Verification of the greedy voxel-merging mesher of the `gekraftet` repository
(`src/gekraftet_client/src/world/mesher/greedy_cube.rs` and
`src/gekraftet_client/src/mesh/builder.rs`).

The 32-bit bit-packed `GroupedBlock` record is embedded as a natural number
with explicit bitwise operations; all masks are written as the 32-bit values
the Rust code computes (e.g. `!0xFFF : u32 = 0xFFFFF000`).  `f32` arithmetic
in the mesh builder is idealized as exact rational arithmetic (`ℚ`); nothing
proved about vertex or index counts depends on arithmetic at all.

Types living in files of the repository that are not available under `src/`
(`Face`, the voxel/block type, `Section`, `Texture`) are modelled from the
spec, as marked on their doc comments.
-/

/-- Modelled from the spec: the `Face` bit-set from `gekraftet_client/src/mesh`
(file not under `src/`): "visible-face mask: 6 bits, one per cube face
(back, right, top, front, left, bottom)".  Bit 0 is back, bit 5 is bottom,
following the spec's enumeration order. -/
structure Face where
  back : Bool
  right : Bool
  top : Bool
  front : Bool
  left : Bool
  bottom : Bool
deriving DecidableEq, Repr

def Face.intoBitfield (f : Face) : Nat :=
  (cond f.back 1 0) ||| (cond f.right 2 0) ||| (cond f.top 4 0) |||
  (cond f.front 8 0) ||| (cond f.left 16 0) ||| (cond f.bottom 32 0)

def Face.fromBitfield (n : Nat) : Face :=
  ⟨n.testBit 0, n.testBit 1, n.testBit 2, n.testBit 3, n.testBit 4, n.testBit 5⟩

/-- `Face::empty()` of the bitflags crate: no face bit set. -/
def Face.empty : Face := ⟨false, false, false, false, false, false⟩

def Face.BACK : Face := ⟨true, false, false, false, false, false⟩
def Face.RIGHT : Face := ⟨false, true, false, false, false, false⟩
def Face.TOP : Face := ⟨false, false, true, false, false, false⟩
def Face.FRONT : Face := ⟨false, false, false, true, false, false⟩
def Face.LEFT : Face := ⟨false, false, false, false, true, false⟩
def Face.BOTTOM : Face := ⟨false, false, false, false, false, true⟩

/-- All six faces visible: the face mask `0b111111` a fresh record starts with. -/
def Face.all : Face := ⟨true, true, true, true, true, true⟩

/-- `face.disable(other)`: clear of `f` every bit set in `g`. -/
def Face.disable (f g : Face) : Face :=
  ⟨f.back && !g.back, f.right && !g.right, f.top && !g.top,
   f.front && !g.front, f.left && !g.left, f.bottom && !g.bottom⟩

/-- `face.intersects(other)`: some bit is set in both. -/
def Face.intersects (f g : Face) : Bool :=
  f.back && g.back || f.right && g.right || f.top && g.top ||
  f.front && g.front || f.left && g.left || f.bottom && g.bottom

/-- Modelled from the spec: the voxel/block type of `gekraftet_core` (file not
under `src/`): "identifies a block type; only the distinction 'type 0 =
empty/air' vs 'nonzero = opaque' matters to this core; all other voxel payload
is opaque to the algorithm".  `id` is the type id tested against 0; `data`
stands for the remaining payload, which participates in the equality used by
the per-section type table. -/
structure Block where
  id : Nat
  data : Nat
deriving DecidableEq, Repr, Inhabited

/-- Modelled from the spec: a section is "a fixed 16×16×16 collection of
Voxels", read as `section[x][z][y]` with all coordinates below 16. -/
def Section : Type := Nat → Nat → Nat → Block

/-- One `GroupedBlock`: the 32-bit bitfield
(extent 12 bits, block-type index 12 bits, faces 6 bits, group flag 1 bit). -/
structure GroupedBlock where
  bitfield : Nat
deriving DecidableEq, Repr

/-- Rust's `#[derive(Default)]`: a zero bitfield. -/
instance : Inhabited GroupedBlock := ⟨⟨0⟩⟩

/-- `GroupedBlock::new`: default extent `(1,1,1)`, all six faces visible,
the given block-type index in bits 12..23. -/
def GroupedBlock.new (block : Nat) : GroupedBlock :=
  ⟨0b100010001 ||| (block <<< 12) ||| (0b111111 <<< 24)⟩

def GroupedBlock.block_id (g : GroupedBlock) : Nat :=
  (g.bitfield >>> 12) &&& 0xFFF

/-- The x component of `GroupedBlock::extent` (stored 0 decodes as 16). -/
def GroupedBlock.extentX (g : GroupedBlock) : Nat :=
  let x := (g.bitfield >>> 8) &&& 0xF
  if x = 0 then 16 else x

/-- The y component of `GroupedBlock::extent` (stored 0 decodes as 16). -/
def GroupedBlock.extentY (g : GroupedBlock) : Nat :=
  let y := (g.bitfield >>> 4) &&& 0xF
  if y = 0 then 16 else y

/-- The z component of `GroupedBlock::extent` (stored 0 decodes as 16). -/
def GroupedBlock.extentZ (g : GroupedBlock) : Nat :=
  let z := (g.bitfield >>> 0) &&& 0xF
  if z = 0 then 16 else z

def GroupedBlock.is_in_group (g : GroupedBlock) : Bool :=
  (g.bitfield >>> 30) &&& 1 == 1

def GroupedBlock.faces (g : GroupedBlock) : Face :=
  Face.fromBitfield ((g.bitfield >>> 24) &&& 0b111111)

/-- `GroupedBlock::extend_to`: overwrite the 12 extent bits
(`!0xFFF : u32` is `0xFFFFF000`). -/
def GroupedBlock.extend_to (g : GroupedBlock) (x y z : Nat) : GroupedBlock :=
  ⟨(g.bitfield &&& 0xFFFFF000) |||
    (((x &&& 0xF) <<< 8) ||| ((y &&& 0xF) <<< 4) ||| (z &&& 0xF))⟩

/-- `GroupedBlock::toggle_group`: flip bit 30. -/
def GroupedBlock.toggle_group (g : GroupedBlock) : GroupedBlock :=
  ⟨g.bitfield ^^^ (1 <<< 30)⟩

/-- `GroupedBlock::set_faces`: overwrite the 6 face bits
(`!(0b111111 << 24) : u32` is `0xC0FFFFFF`). -/
def GroupedBlock.set_faces (g : GroupedBlock) (f : Face) : GroupedBlock :=
  ⟨(g.bitfield &&& 0xC0FFFFFF) ||| (f.intoBitfield <<< 24)⟩

/-- The reverse equality search of Pass 1's type-table lookup
(`blocks.iter().enumerate().rev().find(...)`), scanning indices
`i-1, i-2, ..., 0`. -/
def revFindAux (blocks : Array Block) (b : Block) : Nat → Option Nat
  | 0 => none
  | i + 1 => if blocks.getD i default = b then some i else revFindAux blocks b i

/-- Pass 1's lookup-or-insert on the per-section voxel-type table: the index of
the most recent entry equal to `b`, else `b` pushed at the end. -/
def lookupOrPush (blocks : Array Block) (b : Block) : Array Block × Nat :=
  match revFindAux blocks b blocks.size with
  | some i => (blocks, i)
  | none => (blocks.push b, blocks.size)

/-- The body of Pass 1 for one cell `(x, z, y)`: resolve the cell's type index
(growing the table if needed), create a fresh record, and for `y > 0` compare
with the record at flat index `x*256 + z*16 + y - 1` (the cell below in the
same column): equal type indices merge (extend current's y-extent, absorb the
record below); otherwise two opaque types cull BOTTOM on current and TOP on
the record below.  Finally the new record is pushed. -/
def pass1Cell (sec : Section) : Array Block × Array GroupedBlock →
    Nat → Nat → Nat → Array Block × Array GroupedBlock
  | ⟨blocks0, g⟩, x, z, y =>
  match lookupOrPush blocks0 (sec x z y) with
  | ⟨blocks, blockId⟩ =>
  let group := GroupedBlock.new blockId
  if 0 < y then
    let bIdx := x * 256 + z * 16 + y - 1
    let b := g.getD bIdx default
    let canDisable :=
      ((blocks.getD b.block_id default).id != 0) &&
      ((blocks.getD group.block_id default).id != 0)
    if b.block_id == group.block_id then
      let group := group.extend_to 1 (1 + b.extentY) 1
      let g := g.set! bIdx b.toggle_group
      (blocks, g.push group)
    else if canDisable then
      let face1 := group.faces.disable Face.BOTTOM
      let face2 := b.faces.disable Face.TOP
      let group := group.set_faces face1
      let g := g.set! bIdx (b.set_faces face2)
      (blocks, g.push group)
    else
      (blocks, g.push group)
  else
    (blocks, g.push group)

/-- The x coordinate of flat index `i` (`i = x*256 + z*16 + y`). -/
def cellX (i : Nat) : Nat := i / 256

/-- The z coordinate of flat index `i`. -/
def cellZ (i : Nat) : Nat := i / 16 % 16

/-- The y coordinate of flat index `i`. -/
def cellY (i : Nat) : Nat := i % 16

/-- The first `n` steps of Pass 1.  The source iterates `x`, then `z`, then
`y`, each over `0..16`; that visits the cells exactly in increasing order of
the flat index `x*256 + z*16 + y`, which is how the iteration is linearized
here. -/
def pass1Upto (sec : Section) (n : Nat) : Array Block × Array GroupedBlock :=
  (List.range n).foldl (fun st i => pass1Cell sec st (cellX i) (cellZ i) (cellY i))
    (#[], #[])

/-- Pass 1 (initialization and the y-axis marking pass) over all 4096 cells. -/
def pass1 (sec : Section) : Array Block × Array GroupedBlock := pass1Upto sec 4096

/-- The body of Pass 2 for one cell: compare the record at
`idx = x*256 + z*16 + y` with the one at `idx - 16` (same x and y, z-1).
Skipped for `z = 0` and when the current record is absorbed.  An absorbed
neighbour only lets the current record's BACK face be culled; otherwise equal
y-extents allow a merge (same type index) or a BACK/FRONT cull (both opaque
and neighbour's y-extent ≥ current's, which equality makes automatic). -/
def pass2Cell (blocks : Array Block) (g : Array GroupedBlock)
    (x z y : Nat) : Array GroupedBlock :=
  if z = 0 then g else
  let idx := x * 256 + z * 16 + y
  let idx2 := idx - 16
  let cur := g.getD idx default
  if cur.is_in_group then g else
  let nb := g.getD idx2 default
  let canDisable :=
    ((blocks.getD cur.block_id default).id != 0) &&
    ((blocks.getD nb.block_id default).id != 0) &&
    (decide (cur.extentY ≤ nb.extentY))
  if nb.is_in_group then
    if canDisable then
      g.set! idx (cur.set_faces (cur.faces.disable Face.BACK))
    else g
  else
  if cur.extentY == nb.extentY then
    if cur.block_id == nb.block_id then
      let g := g.set! idx2 nb.toggle_group
      g.set! idx
        (cur.extend_to cur.extentX cur.extentY
          (cur.extentZ + (g.getD idx2 default).extentZ))
    else if canDisable then
      let g := g.set! idx (cur.set_faces (cur.faces.disable Face.BACK))
      g.set! idx2 (nb.set_faces (nb.faces.disable Face.FRONT))
    else g
  else g

/-- The first `n` steps of Pass 2 (same linearization as Pass 1). -/
def pass2Upto (blocks : Array Block) (g : Array GroupedBlock) (n : Nat) :
    Array GroupedBlock :=
  (List.range n).foldl (fun g i => pass2Cell blocks g (cellX i) (cellZ i) (cellY i)) g

/-- Pass 2 (the z-axis marking pass) over all 4096 cells. -/
def pass2 (blocks : Array Block) (g : Array GroupedBlock) : Array GroupedBlock :=
  pass2Upto blocks g 4096

/-- The body of Pass 3 for one cell: like Pass 2 but the neighbour is at
`idx - 256` (x-1), merging needs equal y- and z-extents, the cull pair is
LEFT (current) / RIGHT (neighbour), and culling asks the neighbour's y- and
z-extents to be ≥ the current's. -/
def pass3Cell (blocks : Array Block) (g : Array GroupedBlock)
    (x z y : Nat) : Array GroupedBlock :=
  if x = 0 then g else
  let idx := x * 256 + z * 16 + y
  let idx2 := idx - 256
  let cur := g.getD idx default
  if cur.is_in_group then g else
  let nb := g.getD idx2 default
  let canDisable :=
    ((blocks.getD cur.block_id default).id != 0) &&
    ((blocks.getD nb.block_id default).id != 0) &&
    (decide (cur.extentY ≤ nb.extentY)) &&
    (decide (cur.extentZ ≤ nb.extentZ))
  if nb.is_in_group then
    if canDisable then
      g.set! idx (cur.set_faces (cur.faces.disable Face.LEFT))
    else g
  else
  if (cur.extentY == nb.extentY) && (cur.extentZ == nb.extentZ) then
    if cur.block_id == nb.block_id then
      let g := g.set! idx2 nb.toggle_group
      g.set! idx
        (cur.extend_to (cur.extentX + (g.getD idx2 default).extentX)
          cur.extentY cur.extentZ)
    else if canDisable then
      let g := g.set! idx (cur.set_faces (cur.faces.disable Face.LEFT))
      g.set! idx2 (nb.set_faces (nb.faces.disable Face.RIGHT))
    else g
  else g

/-- The first `n` steps of Pass 3 (same linearization as Pass 1). -/
def pass3Upto (blocks : Array Block) (g : Array GroupedBlock) (n : Nat) :
    Array GroupedBlock :=
  (List.range n).foldl (fun g i => pass3Cell blocks g (cellX i) (cellZ i) (cellY i)) g

/-- Pass 3 (the x-axis marking pass) over all 4096 cells. -/
def pass3 (blocks : Array Block) (g : Array GroupedBlock) : Array GroupedBlock :=
  pass3Upto blocks g 4096

/-- The three passes of `intrasection_cull` in order, producing the final
type table and the 4096 finalized group records. -/
def intrasectionGroups (sec : Section) : Array Block × Array GroupedBlock :=
  let p := pass1 sec
  (p.1, pass3 p.1 (pass2 p.1 p.2))

/-- Number of surviving (non-absorbed) records. -/
def survivors (g : Array GroupedBlock) : Nat :=
  g.foldl (fun n r => if r.is_in_group then n else n + 1) 0

section BitToolkit

lemma tb_two_pow_sub_one' (c n j : Nat) (h : c = 2^n - 1) :
    (c : Nat).testBit j = decide (j < n) := by
  rw [h, Nat.testBit_two_pow_sub_one]

lemma tb_0xFFF (j : Nat) : (0xFFF : Nat).testBit j = decide (j < 12) :=
  tb_two_pow_sub_one' _ 12 j (by norm_num)

lemma tb_0xF (j : Nat) : (0xF : Nat).testBit j = decide (j < 4) :=
  tb_two_pow_sub_one' _ 4 j (by norm_num)

lemma tb_63 (j : Nat) : (63 : Nat).testBit j = decide (j < 6) :=
  tb_two_pow_sub_one' _ 6 j (by norm_num)

lemma tb_one (j : Nat) : (1 : Nat).testBit j = decide (j < 1) :=
  tb_two_pow_sub_one' _ 1 j (by norm_num)

lemma tb_0xFFFFF000 (j : Nat) : (0xFFFFF000 : Nat).testBit j =
    (decide (12 ≤ j) && decide (j < 32)) := by
  have h : (0xFFFFF000 : Nat) = (2^20 - 1) <<< 12 := by
    rw [Nat.shiftLeft_eq]; norm_num
  rw [h, Nat.testBit_shiftLeft, Nat.testBit_two_pow_sub_one, Bool.eq_iff_iff]
  simp only [Bool.and_eq_true, decide_eq_true_eq, ge_iff_le]
  omega

lemma tb_0xC0FFFFFF (j : Nat) : (0xC0FFFFFF : Nat).testBit j =
    (decide (j < 24) || decide (30 ≤ j) && decide (j < 32)) := by
  have h : (0xC0FFFFFF : Nat) = (2^24 - 1) + 2^30 * 3 := by norm_num
  rw [h, Nat.add_comm, Nat.testBit_mul_pow_two_add _ (by norm_num)]
  by_cases h1 : j < 30
  · rw [if_pos h1, Nat.testBit_two_pow_sub_one, Bool.eq_iff_iff]
    simp only [Bool.or_eq_true, Bool.and_eq_true, decide_eq_true_eq]
    omega
  · rw [if_neg h1]
    have h4 : (3 : Nat) = 2^2 - 1 := by norm_num
    rw [h4, Nat.testBit_two_pow_sub_one, Bool.eq_iff_iff]
    simp only [Bool.or_eq_true, Bool.and_eq_true, decide_eq_true_eq]
    omega

lemma tb_0x3F000000 (j : Nat) : (0x3F000000 : Nat).testBit j =
    (decide (24 ≤ j) && decide (j < 30)) := by
  have h : (0x3F000000 : Nat) = 2^24 * 63 := by norm_num
  have h63 : (63 : Nat) = 2^6 - 1 := by norm_num
  rw [h, Nat.testBit_mul_pow_two, h63, Nat.testBit_two_pow_sub_one, Bool.eq_iff_iff]
  simp only [Bool.and_eq_true, decide_eq_true_eq, ge_iff_le]
  omega

lemma tb_0x111 (j : Nat) : (0x111 : Nat).testBit j =
    (decide (j = 0) || decide (j = 4) || decide (j = 8)) := by
  have h : (0x111 : Nat) = 1 ||| ((1 <<< 4) ||| (1 <<< 8)) := by decide
  rw [h]
  simp only [Nat.testBit_lor, Nat.testBit_shiftLeft, tb_one]
  rw [Bool.eq_iff_iff]
  simp only [Bool.or_eq_true, Bool.and_eq_true, decide_eq_true_eq, ge_iff_le]
  omega

/-- The 12 bits written by `extend_to` never reach bit 12 or above. -/
lemma tb_extbits_high (x y z j : Nat) (h : 12 ≤ j) :
    (((x &&& 0xF) <<< 8) ||| ((y &&& 0xF) <<< 4) ||| (z &&& 0xF)).testBit j
      = false := by
  have hf : (0xF : Nat) = 2^4 - 1 := by norm_num
  have hm : ∀ w : Nat, w &&& 0xF < 16 := by
    intro w
    rw [hf, Nat.and_pow_two_sub_one_eq_mod]
    exact Nat.mod_lt _ (by norm_num)
  have hx : (x &&& 0xF) <<< 8 < 2^12 := by
    rw [Nat.shiftLeft_eq]
    have := hm x
    norm_num
    omega
  have hy : (y &&& 0xF) <<< 4 < 2^12 := by
    rw [Nat.shiftLeft_eq]
    have := hm y
    norm_num
    omega
  have hz : z &&& 0xF < 2^12 := lt_trans (hm z) (by norm_num)
  have hlt : ((x &&& 0xF) <<< 8) ||| ((y &&& 0xF) <<< 4) ||| (z &&& 0xF) < 2^12 :=
    Nat.or_lt_two_pow (Nat.or_lt_two_pow hx hy) hz
  exact Nat.testBit_lt_two_pow
    (lt_of_lt_of_le hlt (Nat.pow_le_pow_right (by norm_num) h))

/-- The face bits written by `set_faces` live in bits 24..29. -/
lemma tb_facebits (f : Face) (j : Nat) :
    (f.intoBitfield <<< 24).testBit j =
      (decide (24 ≤ j) && f.intoBitfield.testBit (j - 24)) := by
  rw [Nat.testBit_shiftLeft]

lemma intoBitfield_lt (f : Face) : f.intoBitfield < 64 := by
  rcases f with ⟨b1, b2, b3, b4, b5, b6⟩
  cases b1 <;> cases b2 <;> cases b3 <;> cases b4 <;> cases b5 <;> cases b6 <;> decide

lemma tb_facebits_out (f : Face) (j : Nat) (h : j < 24 ∨ 30 ≤ j) :
    (f.intoBitfield <<< 24).testBit j = false := by
  rw [tb_facebits]
  rcases h with h | h
  · simp [Nat.not_le.mpr h]
  · have : f.intoBitfield.testBit (j - 24) = false := by
      apply Nat.testBit_lt_two_pow
      calc f.intoBitfield < 64 := intoBitfield_lt f
        _ ≤ 2 ^ (j - 24) := by
          have h6 : 6 ≤ j - 24 := by omega
          calc (64 : Nat) = 2^6 := by norm_num
            _ ≤ 2 ^ (j - 24) := Nat.pow_le_pow_right (by norm_num) h6
    simp [this]

lemma nat_beq_eq_decide (m n : Nat) : (m == n) = decide (m = n) := by
  by_cases h : m = n <;> simp [h]

/-- Bit 30 as flipped by `toggle_group`. -/
lemma tb_bit30 (j : Nat) : ((1 : Nat) <<< 30).testBit j = decide (j = 30) := by
  rw [Nat.testBit_shiftLeft, tb_one, Bool.eq_iff_iff]
  simp only [Bool.and_eq_true, decide_eq_true_eq, ge_iff_le]
  omega

lemma is_in_group_eq_testBit (g : GroupedBlock) :
    g.is_in_group = g.bitfield.testBit 30 := by
  unfold GroupedBlock.is_in_group
  have h1 : (1 : Nat) = 2^1 - 1 := by norm_num
  conv_lhs => rw [h1, Nat.and_pow_two_sub_one_eq_mod, Nat.shiftRight_eq_div_pow]
  rw [Nat.testBit_to_div_mod]
  norm_num
  exact nat_beq_eq_decide _ _

lemma faces_eq_testBit (g : GroupedBlock) :
    g.faces = ⟨g.bitfield.testBit 24, g.bitfield.testBit 25, g.bitfield.testBit 26,
      g.bitfield.testBit 27, g.bitfield.testBit 28, g.bitfield.testBit 29⟩ := by
  unfold GroupedBlock.faces Face.fromBitfield
  have h : ∀ i : Nat, i < 6 →
      ((g.bitfield >>> 24) &&& 0b111111).testBit i = g.bitfield.testBit (24 + i) := by
    intro i hi
    rw [Nat.testBit_land, Nat.testBit_shiftRight, tb_63]
    simp [hi]
  congr 1 <;> [exact h 0 (by norm_num); exact h 1 (by norm_num);
    exact h 2 (by norm_num); exact h 3 (by norm_num);
    exact h 4 (by norm_num); exact h 5 (by norm_num)]

end BitToolkit

section FieldLemmas

/-- Records agreeing on bits 12..23 have the same `block_id`. -/
lemma block_id_congr {a b : Nat}
    (h : ∀ j, 12 ≤ j → j < 24 → a.testBit j = b.testBit j) :
    (GroupedBlock.mk a).block_id = (GroupedBlock.mk b).block_id := by
  unfold GroupedBlock.block_id
  apply Nat.eq_of_testBit_eq
  intro j
  simp only [Nat.testBit_land, Nat.testBit_shiftRight, tb_0xFFF]
  by_cases hj : j < 12
  · rw [h (12 + j) (by omega) (by omega)]
  · simp [hj]

/-- Records agreeing on bits 24..29 have the same decoded face set. -/
lemma faces_congr {a b : Nat}
    (h : ∀ j, 24 ≤ j → j < 30 → a.testBit j = b.testBit j) :
    (GroupedBlock.mk a).faces = (GroupedBlock.mk b).faces := by
  rw [faces_eq_testBit, faces_eq_testBit]
  simp only
  congr 1 <;> [exact h 24 (by norm_num) (by norm_num);
    exact h 25 (by norm_num) (by norm_num); exact h 26 (by norm_num) (by norm_num);
    exact h 27 (by norm_num) (by norm_num); exact h 28 (by norm_num) (by norm_num);
    exact h 29 (by norm_num) (by norm_num)]

/-- Records agreeing on bit 30 have the same group flag. -/
lemma is_in_group_congr {a b : Nat} (h : a.testBit 30 = b.testBit 30) :
    (GroupedBlock.mk a).is_in_group = (GroupedBlock.mk b).is_in_group := by
  rw [is_in_group_eq_testBit, is_in_group_eq_testBit]
  exact h

/-- Records agreeing on bits 8..11 have the same decoded x-extent. -/
lemma extentX_congr {a b : Nat}
    (h : ∀ j, 8 ≤ j → j < 12 → a.testBit j = b.testBit j) :
    (GroupedBlock.mk a).extentX = (GroupedBlock.mk b).extentX := by
  unfold GroupedBlock.extentX
  have : (a >>> 8) &&& 0xF = (b >>> 8) &&& 0xF := by
    apply Nat.eq_of_testBit_eq
    intro j
    simp only [Nat.testBit_land, Nat.testBit_shiftRight, tb_0xF]
    by_cases hj : j < 4
    · rw [h (8 + j) (by omega) (by omega)]
    · simp [hj]
  rw [this]

/-- Records agreeing on bits 4..7 have the same decoded y-extent. -/
lemma extentY_congr {a b : Nat}
    (h : ∀ j, 4 ≤ j → j < 8 → a.testBit j = b.testBit j) :
    (GroupedBlock.mk a).extentY = (GroupedBlock.mk b).extentY := by
  unfold GroupedBlock.extentY
  have : (a >>> 4) &&& 0xF = (b >>> 4) &&& 0xF := by
    apply Nat.eq_of_testBit_eq
    intro j
    simp only [Nat.testBit_land, Nat.testBit_shiftRight, tb_0xF]
    by_cases hj : j < 4
    · rw [h (4 + j) (by omega) (by omega)]
    · simp [hj]
  rw [this]

/-- Records agreeing on bits 0..3 have the same decoded z-extent. -/
lemma extentZ_congr {a b : Nat}
    (h : ∀ j, j < 4 → a.testBit j = b.testBit j) :
    (GroupedBlock.mk a).extentZ = (GroupedBlock.mk b).extentZ := by
  unfold GroupedBlock.extentZ
  have : (a >>> 0) &&& 0xF = (b >>> 0) &&& 0xF := by
    apply Nat.eq_of_testBit_eq
    intro j
    simp only [Nat.testBit_land, Nat.testBit_shiftRight, tb_0xF]
    by_cases hj : j < 4
    · rw [show 0 + j = j from by omega, h j hj]
    · simp [hj]
  rw [this]

/-- Bits of `extend_to`'s result in the range 12..31 come from the old record. -/
lemma extend_to_testBit_mid (g : GroupedBlock) (x y z j : Nat)
    (h1 : 12 ≤ j) (h2 : j < 32) :
    (g.extend_to x y z).bitfield.testBit j = g.bitfield.testBit j := by
  unfold GroupedBlock.extend_to
  simp only [Nat.testBit_lor, Nat.testBit_land, tb_0xFFFFF000,
    tb_extbits_high x y z j h1]
  simp [h1, h2]

/-- Bits of `set_faces`' result outside 24..29 (and below 32) are unchanged. -/
lemma set_faces_testBit_out (g : GroupedBlock) (f : Face) (j : Nat)
    (h : j < 24 ∨ (30 ≤ j ∧ j < 32)) :
    (g.set_faces f).bitfield.testBit j = g.bitfield.testBit j := by
  unfold GroupedBlock.set_faces
  rw [Nat.testBit_lor, Nat.testBit_land, tb_0xC0FFFFFF,
    tb_facebits_out f j (by omega)]
  rcases h with h | h
  · simp [h]
  · have h24 : ¬ j < 24 := by omega
    simp [h.1, h.2, h24]

/-- Bits of `toggle_group`'s result away from bit 30 are unchanged. -/
lemma toggle_group_testBit_ne (g : GroupedBlock) (j : Nat) (h : j ≠ 30) :
    g.toggle_group.bitfield.testBit j = g.bitfield.testBit j := by
  unfold GroupedBlock.toggle_group
  rw [Nat.testBit_xor, tb_bit30]
  simp [h]

lemma block_id_extend_to (g : GroupedBlock) (x y z : Nat) :
    (g.extend_to x y z).block_id = g.block_id := by
  have := @block_id_congr (g.extend_to x y z).bitfield g.bitfield
    (fun j hj1 hj2 => extend_to_testBit_mid g x y z j hj1 (by omega))
  exact this

lemma faces_extend_to (g : GroupedBlock) (x y z : Nat) :
    (g.extend_to x y z).faces = g.faces :=
  faces_congr (fun j hj1 hj2 => extend_to_testBit_mid g x y z j (by omega) (by omega))

lemma is_in_group_extend_to (g : GroupedBlock) (x y z : Nat) :
    (g.extend_to x y z).is_in_group = g.is_in_group :=
  is_in_group_congr (extend_to_testBit_mid g x y z 30 (by norm_num) (by norm_num))

lemma block_id_set_faces (g : GroupedBlock) (f : Face) :
    (g.set_faces f).block_id = g.block_id :=
  block_id_congr (fun j hj1 hj2 => set_faces_testBit_out g f j (Or.inl hj2))

lemma is_in_group_set_faces (g : GroupedBlock) (f : Face) :
    (g.set_faces f).is_in_group = g.is_in_group :=
  is_in_group_congr (set_faces_testBit_out g f 30 (Or.inr (by norm_num)))

lemma extentX_set_faces (g : GroupedBlock) (f : Face) :
    (g.set_faces f).extentX = g.extentX :=
  extentX_congr (fun j hj1 hj2 => set_faces_testBit_out g f j (Or.inl (by omega)))

lemma extentY_set_faces (g : GroupedBlock) (f : Face) :
    (g.set_faces f).extentY = g.extentY :=
  extentY_congr (fun j hj1 hj2 => set_faces_testBit_out g f j (Or.inl (by omega)))

lemma extentZ_set_faces (g : GroupedBlock) (f : Face) :
    (g.set_faces f).extentZ = g.extentZ :=
  extentZ_congr (fun j _ => set_faces_testBit_out g f j (Or.inl (by omega)))

lemma block_id_toggle_group (g : GroupedBlock) :
    g.toggle_group.block_id = g.block_id :=
  block_id_congr (fun j hj1 hj2 => toggle_group_testBit_ne g j (by omega))

lemma faces_toggle_group (g : GroupedBlock) :
    g.toggle_group.faces = g.faces :=
  faces_congr (fun j hj1 hj2 => toggle_group_testBit_ne g j (by omega))

lemma extentX_toggle_group (g : GroupedBlock) :
    g.toggle_group.extentX = g.extentX :=
  extentX_congr (fun j hj1 hj2 => toggle_group_testBit_ne g j (by omega))

lemma extentY_toggle_group (g : GroupedBlock) :
    g.toggle_group.extentY = g.extentY :=
  extentY_congr (fun j hj1 hj2 => toggle_group_testBit_ne g j (by omega))

lemma extentZ_toggle_group (g : GroupedBlock) :
    g.toggle_group.extentZ = g.extentZ :=
  extentZ_congr (fun j _ => toggle_group_testBit_ne g j (by omega))

lemma is_in_group_toggle_group (g : GroupedBlock) :
    g.toggle_group.is_in_group = !g.is_in_group := by
  rw [is_in_group_eq_testBit, is_in_group_eq_testBit]
  unfold GroupedBlock.toggle_group
  rw [Nat.testBit_xor, tb_bit30]
  simp

end FieldLemmas

section DecodeLemmas

lemma new_testBit (b : Nat) (j : Nat) : (GroupedBlock.new b).bitfield.testBit j =
    (((decide (j = 0) || decide (j = 4) || decide (j = 8))) ||
     (decide (12 ≤ j) && b.testBit (j - 12)) ||
     (decide (24 ≤ j) && decide (j < 30))) := by
  unfold GroupedBlock.new
  rw [Nat.testBit_lor, Nat.testBit_lor, Nat.testBit_shiftLeft]
  rw [show ((0b100010001 : Nat) = 0x111) from rfl, tb_0x111]
  rw [show ((0b111111 : Nat) <<< 24 = 0x3F000000) from by decide, tb_0x3F000000]

lemma block_id_new (b : Nat) : (GroupedBlock.new b).block_id = b % 4096 := by
  unfold GroupedBlock.block_id
  apply Nat.eq_of_testBit_eq
  intro j
  rw [Nat.testBit_land, Nat.testBit_shiftRight, tb_0xFFF, new_testBit]
  have h4096 : (4096 : Nat) = 2^12 := by norm_num
  rw [h4096, Nat.testBit_mod_two_pow]
  by_cases hj : j < 12
  · have e1 : ¬ (12 + j = 0) := by omega
    have e2 : ¬ (12 + j = 4) := by omega
    have e3 : ¬ (12 + j = 8) := by omega
    have e4 : (12 : Nat) ≤ 12 + j := by omega
    have e5 : ¬ (24 ≤ 12 + j) := by omega
    have e6 : 12 + j - 12 = j := by omega
    simp [e1, e2, e3, e4, e5, e6, hj]
  · simp [hj]

lemma extentX_new (b : Nat) : (GroupedBlock.new b).extentX = 1 := by
  unfold GroupedBlock.extentX
  have h : ((GroupedBlock.new b).bitfield >>> 8) &&& 0xF = 1 := by
    apply Nat.eq_of_testBit_eq
    intro j
    rw [Nat.testBit_land, Nat.testBit_shiftRight, tb_0xF, new_testBit, tb_one]
    by_cases hj : j < 4
    · have e1 : (8 + j = 0) = False := by simp only [eq_iff_iff, iff_false]; omega
      have e2 : (8 + j = 4) = False := by simp only [eq_iff_iff, iff_false]; omega
      have e3 : (8 + j = 8) = (j = 0) := by
        simp only [eq_iff_iff]; omega
      have e4 : ¬ (12 ≤ 8 + j) := by omega
      have e5 : ¬ (24 ≤ 8 + j) := by omega
      have e6 : (j < 1) = (j = 0) := by simp only [eq_iff_iff]; omega
      simp [e1, e2, e3, e4, e5, e6, hj]
    · have e7 : ¬ j = 0 := by omega
      simp [hj, e7]
  rw [h]
  norm_num

lemma extentY_new (b : Nat) : (GroupedBlock.new b).extentY = 1 := by
  unfold GroupedBlock.extentY
  have h : ((GroupedBlock.new b).bitfield >>> 4) &&& 0xF = 1 := by
    apply Nat.eq_of_testBit_eq
    intro j
    rw [Nat.testBit_land, Nat.testBit_shiftRight, tb_0xF, new_testBit, tb_one]
    by_cases hj : j < 4
    · have e1 : (4 + j = 0) = False := by simp only [eq_iff_iff, iff_false]; omega
      have e2 : (4 + j = 4) = (j = 0) := by simp only [eq_iff_iff]; omega
      have e3 : (4 + j = 8) = False := by simp only [eq_iff_iff, iff_false]; omega
      have e4 : ¬ (12 ≤ 4 + j) := by omega
      have e5 : ¬ (24 ≤ 4 + j) := by omega
      have e6 : (j < 1) = (j = 0) := by simp only [eq_iff_iff]; omega
      simp [e1, e2, e3, e4, e5, e6, hj]
    · have e7 : ¬ j = 0 := by omega
      simp [hj, e7]
  rw [h]
  norm_num

lemma extentZ_new (b : Nat) : (GroupedBlock.new b).extentZ = 1 := by
  unfold GroupedBlock.extentZ
  have h : ((GroupedBlock.new b).bitfield >>> 0) &&& 0xF = 1 := by
    apply Nat.eq_of_testBit_eq
    intro j
    rw [Nat.testBit_land, Nat.testBit_shiftRight, tb_0xF, new_testBit, tb_one]
    by_cases hj : j < 4
    · have e2 : (j = 4) = False := by simp only [eq_iff_iff, iff_false]; omega
      have e3 : (j = 8) = False := by simp only [eq_iff_iff, iff_false]; omega
      have e4 : ¬ (12 ≤ j) := by omega
      have e5 : ¬ (24 ≤ j) := by omega
      have e6 : (j < 1) = (j = 0) := by simp only [eq_iff_iff]; omega
      simp [e2, e3, e4, e5, e6, hj]
    · have e7 : ¬ j = 0 := by omega
      simp [hj, e7]
  rw [h]
  norm_num

lemma faces_new (b : Nat) : (GroupedBlock.new b).faces = Face.all := by
  rw [faces_eq_testBit]
  unfold Face.all
  congr 1 <;> (rw [new_testBit]; simp)

lemma is_in_group_new (b : Nat) : (GroupedBlock.new b).is_in_group = b.testBit 18 := by
  rw [is_in_group_eq_testBit, new_testBit]
  norm_num

lemma is_in_group_new_of_lt (b : Nat) (h : b < 2^18) :
    (GroupedBlock.new b).is_in_group = false := by
  rw [is_in_group_new]
  exact Nat.testBit_lt_two_pow h

/-- The low 12 bits written by `extend_to`, bit by bit. -/
lemma extbits_testBit (x y z j : Nat) :
    ((((x &&& 0xF) <<< 8) ||| ((y &&& 0xF) <<< 4) ||| (z &&& 0xF))).testBit j =
    ((decide (8 ≤ j) && decide (j < 12) && x.testBit (j - 8)) ||
     (decide (4 ≤ j) && decide (j < 8) && y.testBit (j - 4)) ||
     (decide (j < 4) && z.testBit j)) := by
  have hf : (0xF : Nat) = 2^4 - 1 := by norm_num
  rw [Nat.testBit_lor, Nat.testBit_lor, Nat.testBit_shiftLeft, Nat.testBit_shiftLeft]
  rw [hf, Nat.and_pow_two_sub_one_eq_mod, Nat.and_pow_two_sub_one_eq_mod,
    Nat.and_pow_two_sub_one_eq_mod, Nat.testBit_mod_two_pow, Nat.testBit_mod_two_pow,
    Nat.testBit_mod_two_pow]
  by_cases c1 : j < 4
  · have f1 : ¬ (8 ≤ j) := by omega
    have f2 : ¬ (4 ≤ j) := by omega
    simp [c1, f1, f2]
  · by_cases c2 : j < 8
    · have f1 : ¬ (8 ≤ j) := by omega
      have f2 : (4 : Nat) ≤ j := by omega
      have f3 : j - 4 < 4 := by omega
      simp [c1, c2, f1, f2, f3]
    · by_cases c3 : j < 12
      · have f1 : (8 : Nat) ≤ j := by omega
        have f2 : (4 : Nat) ≤ j := by omega
        have f3 : j - 8 < 4 := by omega
        have f4 : ¬ (j - 4 < 4) := by omega
        simp [c1, c2, c3, f1, f2, f3, f4]
      · have f1 : ¬ (j - 8 < 4) := by omega
        have f2 : ¬ (j - 4 < 4) := by omega
        simp [c1, c2, c3, f1, f2]

lemma extentX_extend_to (g : GroupedBlock) (x y z : Nat) :
    (g.extend_to x y z).extentX = if x % 16 = 0 then 16 else x % 16 := by
  unfold GroupedBlock.extentX GroupedBlock.extend_to
  have h : ((((g.bitfield &&& 0xFFFFF000) |||
      (((x &&& 0xF) <<< 8) ||| ((y &&& 0xF) <<< 4) ||| (z &&& 0xF)))) >>> 8) &&& 0xF
      = x % 16 := by
    apply Nat.eq_of_testBit_eq
    intro j
    rw [Nat.testBit_land, Nat.testBit_shiftRight, tb_0xF, Nat.testBit_lor,
      Nat.testBit_land, tb_0xFFFFF000, extbits_testBit,
      show (16 : Nat) = 2^4 from by norm_num, Nat.testBit_mod_two_pow]
    by_cases hj : j < 4
    · have e1 : ¬ (12 ≤ 8 + j) := by omega
      have e2 : (8 : Nat) ≤ 8 + j := by omega
      have e3 : 8 + j < 12 := by omega
      have e4 : ¬ (8 + j < 8) := by omega
      have e5 : ¬ (8 + j < 4) := by omega
      have e6 : 8 + j - 8 = j := by omega
      simp [e1, e2, e3, e4, e5, e6, hj]
    · simp [hj]
  rw [h]

lemma extentY_extend_to (g : GroupedBlock) (x y z : Nat) :
    (g.extend_to x y z).extentY = if y % 16 = 0 then 16 else y % 16 := by
  unfold GroupedBlock.extentY GroupedBlock.extend_to
  have h : ((((g.bitfield &&& 0xFFFFF000) |||
      (((x &&& 0xF) <<< 8) ||| ((y &&& 0xF) <<< 4) ||| (z &&& 0xF)))) >>> 4) &&& 0xF
      = y % 16 := by
    apply Nat.eq_of_testBit_eq
    intro j
    rw [Nat.testBit_land, Nat.testBit_shiftRight, tb_0xF, Nat.testBit_lor,
      Nat.testBit_land, tb_0xFFFFF000, extbits_testBit,
      show (16 : Nat) = 2^4 from by norm_num, Nat.testBit_mod_two_pow]
    by_cases hj : j < 4
    · have e1 : ¬ (12 ≤ 4 + j) := by omega
      have e2 : ¬ (8 ≤ 4 + j) ∨ ¬ (4 + j < 12) := by omega
      have e2' : ¬ (8 ≤ 4 + j) := by omega
      have e3 : (4 : Nat) ≤ 4 + j := by omega
      have e4 : 4 + j < 8 := by omega
      have e5 : ¬ (4 + j < 4) := by omega
      have e6 : 4 + j - 4 = j := by omega
      simp [e1, e2', e3, e4, e5, e6, hj]
    · simp [hj]
  rw [h]

lemma extentZ_extend_to (g : GroupedBlock) (x y z : Nat) :
    (g.extend_to x y z).extentZ = if z % 16 = 0 then 16 else z % 16 := by
  unfold GroupedBlock.extentZ GroupedBlock.extend_to
  have h : ((((g.bitfield &&& 0xFFFFF000) |||
      (((x &&& 0xF) <<< 8) ||| ((y &&& 0xF) <<< 4) ||| (z &&& 0xF)))) >>> 0) &&& 0xF
      = z % 16 := by
    apply Nat.eq_of_testBit_eq
    intro j
    rw [Nat.testBit_land, Nat.testBit_shiftRight, tb_0xF, Nat.testBit_lor,
      Nat.testBit_land, tb_0xFFFFF000, extbits_testBit,
      show (16 : Nat) = 2^4 from by norm_num, Nat.testBit_mod_two_pow]
    by_cases hj : j < 4
    · have e1 : ¬ (12 ≤ j) := by omega
      have e2 : ¬ (8 ≤ j) := by omega
      have e3 : ¬ (4 ≤ j) := by omega
      simp [e1, e2, e3, hj]
    · simp [hj]
  rw [h]

lemma fromBitfield_intoBitfield (f : Face) :
    Face.fromBitfield f.intoBitfield = f := by
  rcases f with ⟨b1, b2, b3, b4, b5, b6⟩
  cases b1 <;> cases b2 <;> cases b3 <;> cases b4 <;> cases b5 <;> cases b6 <;> decide

lemma faces_set_faces (g : GroupedBlock) (f : Face) :
    (g.set_faces f).faces = f := by
  rw [faces_eq_testBit]
  have h : ∀ i, i < 6 →
      (g.set_faces f).bitfield.testBit (24 + i) = f.intoBitfield.testBit i := by
    intro i hi
    unfold GroupedBlock.set_faces
    rw [Nat.testBit_lor, Nat.testBit_land, tb_0xC0FFFFFF, tb_facebits]
    have e1 : ¬ (24 + i < 24) := by omega
    have e2 : ¬ (30 ≤ 24 + i) := by omega
    have e3 : (24 : Nat) ≤ 24 + i := by omega
    have e4 : 24 + i - 24 = i := by omega
    simp [e1, e2, e3, e4]
  conv_rhs => rw [show f = Face.fromBitfield f.intoBitfield from (fromBitfield_intoBitfield f).symm]
  unfold Face.fromBitfield
  congr 1 <;> [exact h 0 (by norm_num); exact h 1 (by norm_num);
    exact h 2 (by norm_num); exact h 3 (by norm_num);
    exact h 4 (by norm_num); exact h 5 (by norm_num)]

end DecodeLemmas

section ArrayLemmas

variable {α : Type}

lemma agetD_out (a : Array α) (j : Nat) (d : α) (h : a.size ≤ j) :
    a.getD j d = d := by
  rw [Array.getD_eq_get?, Array.getElem?_ge a h]
  rfl

lemma aset_oob (a : Array α) (i : Nat) (v : α) (h : a.size ≤ i) :
    a.set! i v = a := by
  rw [Array.set!_is_setD]
  unfold Array.setD
  rw [dif_neg (by omega)]

lemma agetD_set_same (a : Array α) (i : Nat) (v : α) (d : α) (h : i < a.size) :
    (a.set! i v).getD i d = v := by
  rw [Array.set!_is_setD]
  unfold Array.setD
  rw [dif_pos h, Array.getD_eq_get?, Array.get?_set]
  simp

lemma agetD_set_other (a : Array α) (i j : Nat) (v : α) (d : α) (h : i ≠ j) :
    (a.set! i v).getD j d = a.getD j d := by
  rw [Array.set!_is_setD]
  unfold Array.setD
  by_cases hi : i < a.size
  · rw [dif_pos hi, Array.getD_eq_get?, Array.get?_set, if_neg h, ← Array.getD_eq_get?]
  · rw [dif_neg hi]

lemma asize_set (a : Array α) (i : Nat) (v : α) : (a.set! i v).size = a.size :=
  Array.size_set! a i v

lemma agetD_push_lt (a : Array α) (j : Nat) (v : α) (d : α) (h : j < a.size) :
    (a.push v).getD j d = a.getD j d := by
  rw [Array.getD_eq_get?, Array.getD_eq_get?, Array.getElem?_push, if_neg (by omega)]

lemma agetD_push_eq (a : Array α) (v : α) (d : α) :
    (a.push v).getD a.size d = v := by
  rw [Array.getD_eq_get?, Array.getElem?_push, if_pos rfl]
  rfl

lemma agetD_push_eq' (a : Array α) (v : α) (d : α) (k : Nat) (hk : k = a.size) :
    (a.push v).getD k d = v := by
  subst hk
  exact agetD_push_eq a v d

lemma agetD_lt (a : Array α) (j : Nat) (d : α) (h : j < a.size) :
    a.getD j d = a.get ⟨j, h⟩ := by
  rw [Array.getD_eq_get?, Array.getElem?_lt a h]
  rfl

end ArrayLemmas

/-! ## The mesh builder (`src/gekraftet_client/src/mesh/builder.rs`)

`f32` scalars are idealized as exact rationals. -/

/-- `cgmath::Vector3<f32>` / `Point3<f32>` with rational components. -/
structure Vec3 where
  x : ℚ
  y : ℚ
  z : ℚ
deriving DecidableEq, Repr

/-- `Point2<f32>` (the lighting-lookup UV coordinate). -/
structure Vec2 where
  x : ℚ
  y : ℚ
deriving DecidableEq, Repr

/-- `RGBA = cgmath::Vector4<f32>`. -/
structure RGBA where
  r : ℚ
  g : ℚ
  b : ℚ
  a : ℚ
deriving DecidableEq, Repr

/-- A mesh vertex: position, color and the lighting-lookup UV coordinate. -/
structure Vertex where
  pos : Vec3
  color : RGBA
  uv : Vec2
deriving DecidableEq, Repr

/-- Modelled from the spec: the texture payload of a mesh (file
`gekraftet_client/src/mesh` not under `src/`); its content is opaque to this
core, which only moves texture lists around. -/
structure Texture where
  tid : Nat
deriving DecidableEq, Repr

/-- The output `Mesh`: boxed vertex/index buffers and an optional texture
list. -/
structure Mesh where
  vertices : List Vertex
  indices : List Nat
  textures : Option (List Texture)
deriving DecidableEq, Repr

structure MeshBuilder where
  vertices : List Vertex
  indices : List Nat
  textures : List Texture
deriving DecidableEq, Repr

def MeshBuilder.new : MeshBuilder := ⟨[], [], []⟩

/-- `MeshBuilder::build`: an empty texture list becomes `None`. -/
def MeshBuilder.build (mb : MeshBuilder) : Mesh :=
  ⟨mb.vertices, mb.indices, if mb.textures.isEmpty then none else some mb.textures⟩

/-- `MeshBuilder::add_mesh`: append vertices, re-index the added mesh's
indices by the current vertex count, append its textures (if any). -/
def MeshBuilder.add_mesh (mb : MeshBuilder) (m : Mesh) : MeshBuilder :=
  ⟨mb.vertices ++ m.vertices,
   mb.indices ++ m.indices.map (fun i => i + mb.vertices.length),
   mb.textures ++ m.textures.getD []⟩

/-- The per-face `LIGHTING` table (back, right, top, front, left, bottom). -/
def LIGHTING : List Nat := [3, 4, 5, 3, 4, 1]

/-- The per-corner `LIGHTING_VERT` table, defined from `LIGHTING` exactly as in
the source (the 8th corner is not involved in lighting). -/
def LIGHTING_VERT : List Nat :=
  [LIGHTING.getD 0 0, LIGHTING.getD 4 0, LIGHTING.getD 1 0, LIGHTING.getD 3 0,
   LIGHTING.getD 5 0, LIGHTING.getD 3 0, LIGHTING.getD 2 0, 5]

/-- `create_vertex` inside `create_cuboid`: offset by the box center, constant
color, lighting encoded into the UV x-coordinate (`0.2 = 1/5` idealized). -/
def createVertex (origin : Vec3) (x y z : ℚ) (lighting : Nat) : Vertex :=
  ⟨⟨x + origin.x, y + origin.y, z + origin.z⟩,
   ⟨9/10, 9/10, 9/10, 1⟩,
   ⟨(lighting : ℚ) * (1/5), 0⟩⟩

/-- The fixed corner scheme 0..7 of `create_cuboid` (corner coordinates are
`±halved` in each axis); corner ids ≥ 8 are unreachable in the source
(`unreachable!`) and are mapped to corner 0 to make the function total. -/
def cornerVertex (halved origin : Vec3) (index : Nat) : Vertex :=
  match index with
  | 0 => createVertex origin (-halved.x) (-halved.y) (-halved.z) (LIGHTING_VERT.getD 0 0)
  | 1 => createVertex origin (-halved.x) halved.y (-halved.z) (LIGHTING_VERT.getD 1 0)
  | 2 => createVertex origin halved.x halved.y (-halved.z) (LIGHTING_VERT.getD 2 0)
  | 3 => createVertex origin halved.x (-halved.y) (-halved.z) (LIGHTING_VERT.getD 3 0)
  | 4 => createVertex origin (-halved.x) (-halved.y) halved.z (LIGHTING_VERT.getD 4 0)
  | 5 => createVertex origin (-halved.x) halved.y halved.z (LIGHTING_VERT.getD 5 0)
  | 6 => createVertex origin halved.x halved.y halved.z (LIGHTING_VERT.getD 6 0)
  | 7 => createVertex origin halved.x (-halved.y) halved.z (LIGHTING_VERT.getD 7 0)
  | _ => createVertex origin (-halved.x) (-halved.y) (-halved.z) (LIGHTING_VERT.getD 0 0)

/-- The mutable state of `create_cuboid`: emitted indices, the corner-id →
vertex-index map (`u32::MAX` sentinel modelled as `none`), and the vertices
added so far. -/
structure CuboidSt where
  actualIndices : List Nat
  mapped : Nat → Option Nat
  added : List Vertex

/-- One step of `add_face`: emit one index, creating the corner's vertex the
first time that corner id is seen. -/
def addFaceStep (halved origin : Vec3) (st : CuboidSt) (index : Nat) : CuboidSt :=
  match st with
  | ⟨ai, mp, ad⟩ =>
    match mp index with
    | some m => ⟨ai ++ [m], mp, ad⟩
    | none =>
      ⟨ai ++ [ad.length],
       fun j => if j = index then some ad.length else mp j,
       ad ++ [cornerVertex halved origin index]⟩

/-- `add_face`: two triangles given by six corner ids. -/
def addFace (halved origin : Vec3) (st : CuboidSt) (ids : List Nat) : CuboidSt :=
  ids.foldl (addFaceStep halved origin) st

/-- `MeshBuilder::create_cuboid`. -/
def createCuboid (length : Vec3) (origin : Vec3) (faces : Face) : Mesh :=
  if faces = Face.empty then MeshBuilder.new.build
  else
    let halved : Vec3 := ⟨length.x * (1/2), length.y * (1/2), length.z * (1/2)⟩
    let st0 : CuboidSt := ⟨[], fun _ => none, []⟩
    let st1 := if faces.intersects Face.BACK then addFace halved origin st0 [1, 3, 0, 1, 2, 3] else st0
    let st2 := if faces.intersects Face.RIGHT then addFace halved origin st1 [7, 3, 2, 6, 7, 2] else st1
    let st3 := if faces.intersects Face.TOP then addFace halved origin st2 [1, 5, 6, 2, 1, 6] else st2
    let st4 := if faces.intersects Face.FRONT then addFace halved origin st3 [4, 7, 5, 7, 6, 5] else st3
    let st5 := if faces.intersects Face.LEFT then addFace halved origin st4 [0, 4, 1, 4, 5, 1] else st4
    let st6 := if faces.intersects Face.BOTTOM then addFace halved origin st5 [3, 7, 4, 0, 3, 4] else st5
    MeshBuilder.build ⟨st6.added, st6.actualIndices, []⟩

/-! ## Emission (the final loop of `intrasection_cull`) -/

/-- The mesh of one surviving group record: decode the record's grid position
from its flat index, place the box (origin shifted by the extent, centered),
and emit only the surviving faces.  `blockLength` is the `BLOCK_LENGTH`
constant of the mesher module (not under `src/`). -/
def boxMesh (blockLength : ℚ) (blockPos : Int × Int × Int) (pos : Nat)
    (grp : GroupedBlock) : Mesh :=
  let x : Int := ((pos >>> 8) &&& 0xF : Nat)
  let z : Int := ((pos >>> 4) &&& 0xF : Nat)
  let y : Int := ((pos >>> 0) &&& 0xF : Nat)
  let ex : Int := grp.extentX
  let ey : Int := grp.extentY
  let ez : Int := grp.extentZ
  let ox : Int := x + blockPos.1 - ex
  let oy : Int := y + blockPos.2.1 - ey
  let oz : Int := z + blockPos.2.2 - ez
  createCuboid
    ⟨(ex : ℚ) * blockLength, (ey : ℚ) * blockLength, (ez : ℚ) * blockLength⟩
    ⟨((ox : ℚ) + (1/2) * ex) * blockLength, ((oy : ℚ) + (1/2) * ey) * blockLength,
     ((oz : ℚ) + (1/2) * ez) * blockLength⟩
    grp.faces

/-- The two `continue` guards of the emission loop: a record contributes a box
exactly when it is not absorbed and its type is not empty. -/
def emitsBox (blocks : Array Block) (grp : GroupedBlock) : Bool :=
  !grp.is_in_group && !((blocks.getD grp.block_id default).id == 0)

/-- The emission loop: fold every finalized record into the accumulated
builder, skipping absorbed records and records of the empty type. -/
def emitSection (blockLength : ℚ) (blocks : Array Block)
    (blockPos : Int × Int × Int) (groups : Array GroupedBlock) : Mesh :=
  (groups.toList.enum.foldl (fun mb pg =>
    if pg.2.is_in_group then mb
    else if (blocks.getD pg.2.block_id default).id == 0 then mb
    else mb.add_mesh (boxMesh blockLength blockPos pg.1 pg.2)) MeshBuilder.new).build

/-- All of `intrasection_cull`: the three passes followed by emission
(`block_pos = section_pos * 16`). -/
def intrasection_cull (blockLength : ℚ) (sectionPos : Int × Int × Int)
    (sec : Section) : Mesh :=
  let p := intrasectionGroups sec
  emitSection blockLength p.1
    (16 * sectionPos.1, 16 * sectionPos.2.1, 16 * sectionPos.2.2) p.2

/-! ## Claim theorems -/

/-- C4: for every integer extent `e` in `[1,16]`, writing `e` on any one of the
three axes with `extend_to` and decoding with `extent` returns exactly `e` on
that axis; the stored 4-bit value `0` decodes as magnitude 16, so `e = 16`
round-trips through the `0` encoding. -/
theorem extent_roundtrip (g : GroupedBlock) (e a b : Nat)
    (h1 : 1 ≤ e) (h2 : e ≤ 16) :
    (g.extend_to e a b).extentX = e ∧ (g.extend_to a e b).extentY = e ∧
    (g.extend_to a b e).extentZ = e := by
  rw [extentX_extend_to, extentY_extend_to, extentZ_extend_to]
  rcases Nat.lt_or_ge e 16 with h | h
  · have he : e % 16 = e := Nat.mod_eq_of_lt h
    have hne : ¬ (e % 16 = 0) := by omega
    simp [he, hne]
    omega
  · have he : e = 16 := by omega
    subst he
    norm_num

/-- Witness for C4 at `e = 16` (the `0 → 16` special case) on a fresh record. -/
theorem extent_roundtrip_witness :
    1 ≤ 16 ∧ 16 ≤ 16 ∧
    (((GroupedBlock.new 0).extend_to 16 1 1).extentX = 16 ∧
     ((GroupedBlock.new 0).extend_to 1 16 1).extentY = 16 ∧
     ((GroupedBlock.new 0).extend_to 1 1 16).extentZ = 16) :=
  ⟨by decide, by decide,
   extent_roundtrip (GroupedBlock.new 0) 16 1 1 (by decide) (by decide)⟩

/-- C7: each `GroupedBlock` mutator touches only its own bit range:
`extend_to` leaves the type index, face mask and group flag unchanged,
`set_faces` leaves the type index, all three extents and the group flag
unchanged, and `toggle_group` leaves the type index, all three extents and the
face mask unchanged (flipping exactly the group flag). -/
theorem mutators_frame (g : GroupedBlock) (x y z : Nat) (f : Face) :
    ((g.extend_to x y z).block_id = g.block_id ∧
     (g.extend_to x y z).faces = g.faces ∧
     (g.extend_to x y z).is_in_group = g.is_in_group) ∧
    ((g.set_faces f).block_id = g.block_id ∧
     (g.set_faces f).extentX = g.extentX ∧
     (g.set_faces f).extentY = g.extentY ∧
     (g.set_faces f).extentZ = g.extentZ ∧
     (g.set_faces f).is_in_group = g.is_in_group) ∧
    (g.toggle_group.block_id = g.block_id ∧
     g.toggle_group.extentX = g.extentX ∧
     g.toggle_group.extentY = g.extentY ∧
     g.toggle_group.extentZ = g.extentZ ∧
     g.toggle_group.faces = g.faces ∧
     g.toggle_group.is_in_group = !g.is_in_group) :=
  ⟨⟨block_id_extend_to g x y z, faces_extend_to g x y z, is_in_group_extend_to g x y z⟩,
   ⟨block_id_set_faces g f, extentX_set_faces g f, extentY_set_faces g f,
    extentZ_set_faces g f, is_in_group_set_faces g f⟩,
   ⟨block_id_toggle_group g, extentX_toggle_group g, extentY_toggle_group g,
    extentZ_toggle_group g, faces_toggle_group g, is_in_group_toggle_group g⟩⟩

/-- C10: `create_cuboid` with an empty face mask returns a mesh with no
vertices, no indices and no textures, and a group record whose faces were all
culled contributes nothing when added to the accumulated section builder. -/
theorem empty_faces_contribute_nothing (len origin : Vec3) (L : ℚ)
    (bp : Int × Int × Int) (pos : Nat) (grp : GroupedBlock) (mb : MeshBuilder)
    (h : grp.faces = Face.empty) :
    createCuboid len origin Face.empty = ⟨[], [], none⟩ ∧
    boxMesh L bp pos grp = ⟨[], [], none⟩ ∧
    mb.add_mesh (boxMesh L bp pos grp) = mb := by
  have h1 : createCuboid len origin Face.empty = ⟨[], [], none⟩ := rfl
  have h2 : ∀ l o : Vec3, createCuboid l o Face.empty = ⟨[], [], none⟩ :=
    fun _ _ => rfl
  have h3 : boxMesh L bp pos grp = ⟨[], [], none⟩ := by
    unfold boxMesh
    rw [h]
    apply h2
  refine ⟨h1, h3, ?_⟩
  rw [h3]
  rcases mb with ⟨v, i, t⟩
  simp [MeshBuilder.add_mesh]

/-- Witness for C10: a fresh record with all faces turned off. -/
theorem empty_faces_contribute_nothing_witness :
    ((GroupedBlock.new 0).set_faces Face.empty).faces = Face.empty ∧
    (createCuboid ⟨1, 1, 1⟩ ⟨0, 0, 0⟩ Face.empty = ⟨[], [], none⟩ ∧
     boxMesh 1 (0, 0, 0) 0 ((GroupedBlock.new 0).set_faces Face.empty) = ⟨[], [], none⟩ ∧
     MeshBuilder.new.add_mesh
       (boxMesh 1 (0, 0, 0) 0 ((GroupedBlock.new 0).set_faces Face.empty))
       = MeshBuilder.new) :=
  ⟨by decide,
   empty_faces_contribute_nothing ⟨1, 1, 1⟩ ⟨0, 0, 0⟩ 1 (0, 0, 0) 0
     ((GroupedBlock.new 0).set_faces Face.empty) MeshBuilder.new (by decide)⟩

/-! ## C5 infrastructure: corner deduplication in `create_cuboid` -/

/-- Number of visible faces in a mask. -/
def faceCount (m : Face) : Nat :=
  (cond m.back 1 0) + (cond m.right 1 0) + (cond m.top 1 0) +
  (cond m.front 1 0) + (cond m.left 1 0) + (cond m.bottom 1 0)

lemma addFaceStep_indices_len (h o : Vec3) (st : CuboidSt) (i : Nat) :
    (addFaceStep h o st i).actualIndices.length = st.actualIndices.length + 1 := by
  rcases st with ⟨ai, mp, ad⟩
  simp only [addFaceStep]
  split <;> simp

lemma addFace_indices_len (h o : Vec3) (st : CuboidSt) (ids : List Nat) :
    (addFace h o st ids).actualIndices.length
      = st.actualIndices.length + ids.length := by
  induction ids generalizing st with
  | nil => rfl
  | cons i rest ih =>
    unfold addFace at ih ⊢
    rw [List.foldl_cons, ih, addFaceStep_indices_len]
    simp
    omega

/-- First-occurrence insertion of a corner id into the list of ids seen so
far, mirroring the `mapped_indices` sentinel check of `create_cuboid`. -/
def insertSeen (s : List Nat) (i : Nat) : List Nat :=
  if i ∈ s then s else s ++ [i]

/-- The ids seen after processing one face's corner-id sequence. -/
def seenAfter (s : List Nat) (ids : List Nat) : List Nat := ids.foldl insertSeen s

/-- The corner ids of the vertices `create_cuboid` pushes for mask `m`, in
push order. -/
def cuboidSeen (m : Face) : List Nat :=
  let s0 : List Nat := []
  let s1 := if m.intersects Face.BACK then seenAfter s0 [1, 3, 0, 1, 2, 3] else s0
  let s2 := if m.intersects Face.RIGHT then seenAfter s1 [7, 3, 2, 6, 7, 2] else s1
  let s3 := if m.intersects Face.TOP then seenAfter s2 [1, 5, 6, 2, 1, 6] else s2
  let s4 := if m.intersects Face.FRONT then seenAfter s3 [4, 7, 5, 7, 6, 5] else s3
  let s5 := if m.intersects Face.LEFT then seenAfter s4 [0, 4, 1, 4, 5, 1] else s4
  if m.intersects Face.BOTTOM then seenAfter s5 [3, 7, 4, 0, 3, 4] else s5

/-- The invariant carried through `create_cuboid`'s face loop: the vertices
added so far are exactly one per distinct corner id seen so far, and the
corner-id map knows precisely the seen ids. -/
def CuboidInv (h o : Vec3) (st : CuboidSt) (seen : List Nat) : Prop :=
  seen.Nodup ∧ (∀ i ∈ seen, i < 8) ∧
  st.added = seen.map (cornerVertex h o) ∧
  (∀ i, i < 8 → (st.mapped i = none ↔ i ∉ seen))

lemma addFaceStep_inv (h o : Vec3) (st : CuboidSt) (seen : List Nat) (i : Nat)
    (hi : i < 8) (hInv : CuboidInv h o st seen) :
    CuboidInv h o (addFaceStep h o st i) (insertSeen seen i) := by
  rcases st with ⟨ai, mp, ad⟩
  obtain ⟨hnd, hlt, hadd, hmap⟩ := hInv
  simp only at hadd hmap
  unfold insertSeen
  simp only [addFaceStep]
  split
  case _ m hmp =>
    have hin : i ∈ seen := by
      by_contra hni
      have hnone : mp i = none := (hmap i hi).mpr hni
      rw [hmp] at hnone
      exact Option.noConfusion hnone
    rw [if_pos hin]
    exact ⟨hnd, hlt, hadd, hmap⟩
  case _ hmp =>
    have hni : i ∉ seen := (hmap i hi).mp hmp
    rw [if_neg hni]
    refine ⟨?_, ?_, ?_, ?_⟩
    · simp [List.nodup_append, hnd, hni]
    · intro j hj
      rcases List.mem_append.mp hj with hj | hj
      · exact hlt j hj
      · simp at hj
        omega
    · simp only [List.map_append, List.map_cons, List.map_nil]
      rw [hadd]
    · intro j hj
      by_cases hji : j = i
      · subst hji
        simp
      · change (if j = i then some ad.length else mp j) = none ↔ j ∉ seen ++ [i]
        rw [if_neg hji, hmap j hj]
        simp [hji]

lemma addFace_inv (h o : Vec3) (st : CuboidSt) (seen : List Nat)
    (ids : List Nat) (hids : ∀ i ∈ ids, i < 8) (hInv : CuboidInv h o st seen) :
    CuboidInv h o (addFace h o st ids) (seenAfter seen ids) := by
  induction ids generalizing st seen with
  | nil => exact hInv
  | cons i rest ih =>
    unfold addFace seenAfter at ih ⊢
    rw [List.foldl_cons, List.foldl_cons]
    exact ih (addFaceStep h o st i) (insertSeen seen i)
      (fun j hj => hids j (by simp [hj]))
      (addFaceStep_inv h o st seen i (hids i (by simp)) hInv)

/-- The final state of `create_cuboid`'s face loop satisfies the corner
invariant with exactly the seen-id list `cuboidSeen m`. -/
lemma createCuboid_inv (l o : Vec3) (m : Face) :
    CuboidInv ⟨l.x * (1/2), l.y * (1/2), l.z * (1/2)⟩ o
      (let halved : Vec3 := ⟨l.x * (1/2), l.y * (1/2), l.z * (1/2)⟩
       let st0 : CuboidSt := ⟨[], fun _ => none, []⟩
       let st1 := if m.intersects Face.BACK then addFace halved o st0 [1, 3, 0, 1, 2, 3] else st0
       let st2 := if m.intersects Face.RIGHT then addFace halved o st1 [7, 3, 2, 6, 7, 2] else st1
       let st3 := if m.intersects Face.TOP then addFace halved o st2 [1, 5, 6, 2, 1, 6] else st2
       let st4 := if m.intersects Face.FRONT then addFace halved o st3 [4, 7, 5, 7, 6, 5] else st3
       let st5 := if m.intersects Face.LEFT then addFace halved o st4 [0, 4, 1, 4, 5, 1] else st4
       if m.intersects Face.BOTTOM then addFace halved o st5 [3, 7, 4, 0, 3, 4] else st5)
      (cuboidSeen m) := by
  have h0 : CuboidInv ⟨l.x * (1/2), l.y * (1/2), l.z * (1/2)⟩ o
      ⟨[], fun _ => none, []⟩ [] := ⟨List.nodup_nil, by simp, by simp, by simp⟩
  set hv : Vec3 := ⟨l.x * (1/2), l.y * (1/2), l.z * (1/2)⟩
  have step : ∀ (st : CuboidSt) (seen : List Nat) (c : Bool) (ids : List Nat),
      (∀ i ∈ ids, i < 8) → CuboidInv hv o st seen →
      CuboidInv hv o (if c then addFace hv o st ids else st)
        (if c then seenAfter seen ids else seen) := by
    intro st seen c ids hids hInv
    cases c
    · exact hInv
    · simpa using addFace_inv hv o st seen ids hids hInv
  unfold cuboidSeen
  have h1 := step _ _ (m.intersects Face.BACK) [1, 3, 0, 1, 2, 3] (by decide) h0
  have h2 := step _ _ (m.intersects Face.RIGHT) [7, 3, 2, 6, 7, 2] (by decide) h1
  have h3 := step _ _ (m.intersects Face.TOP) [1, 5, 6, 2, 1, 6] (by decide) h2
  have h4 := step _ _ (m.intersects Face.FRONT) [4, 7, 5, 7, 6, 5] (by decide) h3
  have h5 := step _ _ (m.intersects Face.LEFT) [0, 4, 1, 4, 5, 1] (by decide) h4
  exact step _ _ (m.intersects Face.BOTTOM) [3, 7, 4, 0, 3, 4] (by decide) h5

/-- For a nonempty mask the vertex list is one vertex per seen corner id. -/
lemma createCuboid_vertices_char (l o : Vec3) (m : Face) (hm : ¬ m = Face.empty) :
    (createCuboid l o m).vertices =
      (cuboidSeen m).map (cornerVertex ⟨l.x * (1/2), l.y * (1/2), l.z * (1/2)⟩ o) := by
  have h := createCuboid_inv l o m
  obtain ⟨_, _, hadd, _⟩ := h
  rw [← hadd]
  simp only [createCuboid, if_neg hm]
  rfl

lemma cuboidSeen_nodup_lt (m : Face) :
    (cuboidSeen m).Nodup ∧ ∀ i ∈ cuboidSeen m, i < 8 :=
  let h := createCuboid_inv ⟨1, 1, 1⟩ ⟨0, 0, 0⟩ m
  ⟨h.1, h.2.1⟩

lemma cornerVertex_pos_ne (hv o : Vec3) (hx : hv.x ≠ 0) (hy : hv.y ≠ 0)
    (hz : hv.z ≠ 0) (i j : Nat) (hi : i < 8) (hj : j < 8) (hij : i ≠ j) :
    (cornerVertex hv o i).pos ≠ (cornerVertex hv o j).pos := by
  interval_cases i <;> interval_cases j <;>
    first
      | exact absurd rfl hij
      | (simp only [cornerVertex, createVertex, Vec3.mk.injEq, ne_eq, not_and]
         rintro e1 e2 e3
         first
           | exact hx (by linarith)
           | exact hy (by linarith)
           | exact hz (by linarith))

/-- No corner position repeats in the vertex list when all three box
dimensions are nonzero. -/
lemma createCuboid_pos_nodup (l o : Vec3) (m : Face)
    (hx : l.x ≠ 0) (hy : l.y ≠ 0) (hz : l.z ≠ 0) :
    ((createCuboid l o m).vertices.map Vertex.pos).Nodup := by
  by_cases hm : m = Face.empty
  · subst hm
    simp [createCuboid, MeshBuilder.new, MeshBuilder.build]
  · rw [createCuboid_vertices_char l o m hm, List.map_map]
    obtain ⟨hnd, hlt⟩ := cuboidSeen_nodup_lt m
    have hv : (⟨l.x * (1/2), l.y * (1/2), l.z * (1/2)⟩ : Vec3).x ≠ 0 :=
      mul_ne_zero hx (by norm_num)
    have hv2 : (⟨l.x * (1/2), l.y * (1/2), l.z * (1/2)⟩ : Vec3).y ≠ 0 :=
      mul_ne_zero hy (by norm_num)
    have hv3 : (⟨l.x * (1/2), l.y * (1/2), l.z * (1/2)⟩ : Vec3).z ≠ 0 :=
      mul_ne_zero hz (by norm_num)
    refine List.Nodup.map_on ?_ hnd
    intro a ha b hb hfab
    by_contra hab
    exact cornerVertex_pos_ne _ o hv hv2 hv3 a b (hlt a ha) (hlt b hb) hab hfab

set_option maxRecDepth 4096 in
lemma createCuboid_all_vertices_length (l o : Vec3) :
    (createCuboid l o Face.all).vertices.length = 8 := by
  rw [createCuboid_vertices_char l o Face.all (by decide), List.length_map]
  rfl

lemma createCuboid_indices_length (l o : Vec3) (m : Face) :
    (createCuboid l o m).indices.length = 6 * faceCount m := by
  rcases m with ⟨b1, b2, b3, b4, b5, b6⟩
  cases b1 <;> cases b2 <;> cases b3 <;> cases b4 <;> cases b5 <;> cases b6 <;>
    simp [createCuboid, addFace_indices_len, faceCount, MeshBuilder.build,
      MeshBuilder.new, Face.intersects, Face.empty, Face.BACK, Face.RIGHT,
      Face.TOP, Face.FRONT, Face.LEFT, Face.BOTTOM]

/-- C5 (amended): for every box dimensions and origin, `create_cuboid` with
all six faces visible emits exactly 8 vertices and 36 indices; for every face
mask each visible face contributes exactly 6 indices; and — provided all three
box dimensions are nonzero — corners shared between visible faces are
deduplicated, so no corner position appears twice in the vertex list. -/
theorem cuboid_corner_dedup (l o : Vec3) (m : Face)
    (hx : l.x ≠ 0) (hy : l.y ≠ 0) (hz : l.z ≠ 0) :
    ((createCuboid l o Face.all).vertices.length = 8 ∧
     (createCuboid l o Face.all).indices.length = 36) ∧
    (createCuboid l o m).indices.length = 6 * faceCount m ∧
    ((createCuboid l o m).vertices.map Vertex.pos).Nodup :=
  ⟨⟨createCuboid_all_vertices_length l o, createCuboid_indices_length l o Face.all⟩,
   createCuboid_indices_length l o m,
   createCuboid_pos_nodup l o m hx hy hz⟩

set_option maxRecDepth 8192 in
/-- C5 counterexample: for the degenerate box of dimensions `(0,0,0)` (all six
faces visible) every corner decodes to the same position, so a corner position
does appear twice in the vertex list — the claim's dedup-by-position reading
fails without a nonzero-dimension assumption (deduplication is by corner id,
not by position). -/
theorem cuboid_corner_dedup_cex :
    ¬ ((createCuboid ⟨0, 0, 0⟩ ⟨0, 0, 0⟩ Face.all).vertices.map Vertex.pos).Nodup := by
  rw [createCuboid_vertices_char ⟨0, 0, 0⟩ ⟨0, 0, 0⟩ Face.all (by decide)]
  rw [show cuboidSeen Face.all = [1, 3, 0, 2, 7, 6, 5, 4] from rfl]
  norm_num [cornerVertex, createVertex, LIGHTING_VERT, LIGHTING, List.Nodup]

/-- Witness for C5 at box dimensions `(1,2,3)`. -/
theorem cuboid_corner_dedup_witness :
    (1 : ℚ) ≠ 0 ∧ (2 : ℚ) ≠ 0 ∧ (3 : ℚ) ≠ 0 ∧
    (((createCuboid ⟨1, 2, 3⟩ ⟨0, 0, 0⟩ Face.all).vertices.length = 8 ∧
      (createCuboid ⟨1, 2, 3⟩ ⟨0, 0, 0⟩ Face.all).indices.length = 36) ∧
     (createCuboid ⟨1, 2, 3⟩ ⟨0, 0, 0⟩ Face.BACK).indices.length
        = 6 * faceCount Face.BACK ∧
     ((createCuboid ⟨1, 2, 3⟩ ⟨0, 0, 0⟩ Face.BACK).vertices.map Vertex.pos).Nodup) :=
  ⟨by norm_num, by norm_num, by norm_num,
   cuboid_corner_dedup ⟨1, 2, 3⟩ ⟨0, 0, 0⟩ Face.BACK
     (by norm_num) (by norm_num) (by norm_num)⟩

/-! ## C6 infrastructure: the emission loop -/

lemma add_mesh_vertices_length (mb : MeshBuilder) (m : Mesh) :
    (mb.add_mesh m).vertices.length = mb.vertices.length + m.vertices.length := by
  simp [MeshBuilder.add_mesh]

lemma add_mesh_indices_length (mb : MeshBuilder) (m : Mesh) :
    (mb.add_mesh m).indices.length = mb.indices.length + m.indices.length := by
  simp [MeshBuilder.add_mesh]

/-- The body of the emission loop, as a named step function. -/
def emitStep (blockLength : ℚ) (blocks : Array Block) (blockPos : Int × Int × Int)
    (mb : MeshBuilder) (pg : Nat × GroupedBlock) : MeshBuilder :=
  if pg.2.is_in_group then mb
  else if (blocks.getD pg.2.block_id default).id == 0 then mb
  else mb.add_mesh (boxMesh blockLength blockPos pg.1 pg.2)

lemma emitSection_eq_fold (L : ℚ) (bl : Array Block) (bp : Int × Int × Int)
    (gs : Array GroupedBlock) :
    emitSection L bl bp gs
      = (gs.toList.enum.foldl (emitStep L bl bp) MeshBuilder.new).build := rfl

lemma emitStep_skip (L : ℚ) (bl : Array Block) (bp : Int × Int × Int)
    (mb : MeshBuilder) (pg : Nat × GroupedBlock)
    (h : emitsBox bl pg.2 = false) :
    emitStep L bl bp mb pg = mb := by
  unfold emitStep
  unfold emitsBox at h
  rcases hin : pg.2.is_in_group with _ | _
  · rw [hin] at h
    simp at h
    simp [hin, h]
  · simp [hin]

lemma emitStep_emit (L : ℚ) (bl : Array Block) (bp : Int × Int × Int)
    (mb : MeshBuilder) (pg : Nat × GroupedBlock)
    (h : emitsBox bl pg.2 = true) :
    emitStep L bl bp mb pg = mb.add_mesh (boxMesh L bp pg.1 pg.2) := by
  unfold emitStep
  unfold emitsBox at h
  simp only [Bool.and_eq_true, Bool.not_eq_true'] at h
  obtain ⟨h1, h2⟩ := h
  simp only [h1, Bool.false_eq_true, if_false, h2]

lemma emit_fold_lengths (L : ℚ) (bl : Array Block) (bp : Int × Int × Int)
    (l : List (Nat × GroupedBlock)) (mb : MeshBuilder) :
    (l.foldl (emitStep L bl bp) mb).vertices.length
        = mb.vertices.length
          + (((l.filter (fun pg => emitsBox bl pg.2)).map
              (fun pg => (boxMesh L bp pg.1 pg.2).vertices.length)).sum) ∧
    (l.foldl (emitStep L bl bp) mb).indices.length
        = mb.indices.length
          + (((l.filter (fun pg => emitsBox bl pg.2)).map
              (fun pg => (boxMesh L bp pg.1 pg.2).indices.length)).sum) := by
  induction l generalizing mb with
  | nil => simp
  | cons pg rest ih =>
    rw [List.foldl_cons]
    rcases hpg : emitsBox bl pg.2 with _ | _
    · rw [emitStep_skip L bl bp mb pg hpg]
      obtain ⟨ih1, ih2⟩ := ih mb
      simp [List.filter_cons, hpg, ih1, ih2]
    · rw [emitStep_emit L bl bp mb pg hpg]
      obtain ⟨ih1, ih2⟩ := ih (mb.add_mesh (boxMesh L bp pg.1 pg.2))
      rw [ih1, ih2]
      simp [List.filter_cons, hpg, add_mesh_vertices_length, add_mesh_indices_length]
      constructor <;> omega

/-- C6: a finalized record contributes a box to the section mesh exactly when
its merged/absorbed flag is clear and its voxel type resolves to a nonzero
type; absorbed and empty-type records are skipped and add no vertices or
indices — the accumulated mesh's vertex and index counts are precisely the
sums over the emitting records' boxes. -/
theorem emission_skips_absorbed_and_air (L : ℚ) (bl : Array Block)
    (bp : Int × Int × Int) (gs : Array GroupedBlock) :
    ((emitSection L bl bp gs).vertices.length
        = (((gs.toList.enum.filter (fun pg => emitsBox bl pg.2)).map
            (fun pg => (boxMesh L bp pg.1 pg.2).vertices.length)).sum) ∧
     (emitSection L bl bp gs).indices.length
        = (((gs.toList.enum.filter (fun pg => emitsBox bl pg.2)).map
            (fun pg => (boxMesh L bp pg.1 pg.2).indices.length)).sum)) ∧
    ∀ grp : GroupedBlock,
      emitsBox bl grp = true
        ↔ (grp.is_in_group = false ∧ (bl.getD grp.block_id default).id ≠ 0) := by
  constructor
  · obtain ⟨h1, h2⟩ := emit_fold_lengths L bl bp gs.toList.enum MeshBuilder.new
    rw [emitSection_eq_fold]
    constructor
    · rw [show ∀ mb : MeshBuilder, mb.build.vertices = mb.vertices from fun _ => rfl, h1]
      simp [MeshBuilder.new]
    · rw [show ∀ mb : MeshBuilder, mb.build.indices = mb.indices from fun _ => rfl, h2]
      simp [MeshBuilder.new]
  · intro grp
    unfold emitsBox
    simp only [Bool.and_eq_true, Bool.not_eq_true']
    constructor
    · rintro ⟨h1, h2⟩
      refine ⟨h1, ?_⟩
      intro hc
      rw [hc] at h2
      simp at h2
    · rintro ⟨h1, h2⟩
      refine ⟨h1, ?_⟩
      simpa using h2

/-! ## Lookup correctness for the per-section type table -/

lemma revFindAux_some {blocks : Array Block} {b : Block} {n i : Nat}
    (h : revFindAux blocks b n = some i) :
    i < n ∧ blocks.getD i default = b := by
  induction n with
  | zero => exact absurd h (by simp [revFindAux])
  | succ m ih =>
    unfold revFindAux at h
    split at h
    case _ hb =>
      cases h
      exact ⟨Nat.lt_succ_self _, hb⟩
    case _ hb =>
      obtain ⟨h1, h2⟩ := ih h
      exact ⟨Nat.lt_succ_of_lt h1, h2⟩

lemma lookupOrPush_le (blocks : Array Block) (b : Block) :
    (lookupOrPush blocks b).2 ≤ blocks.size := by
  unfold lookupOrPush
  split
  case _ i heq => exact Nat.le_of_lt (revFindAux_some heq).1
  case _ => exact Nat.le_refl _

lemma lookupOrPush_getD (blocks : Array Block) (b : Block) :
    (lookupOrPush blocks b).1.getD (lookupOrPush blocks b).2 default = b := by
  unfold lookupOrPush
  split
  case _ i heq => exact (revFindAux_some heq).2
  case _ => exact agetD_push_eq blocks b default

lemma lookupOrPush_size (blocks : Array Block) (b : Block) :
    blocks.size ≤ (lookupOrPush blocks b).1.size := by
  unfold lookupOrPush
  split
  · exact Nat.le_refl _
  · rw [Array.size_push]
    omega

/-- C2 (amended): in Pass 1, whenever the two adjacent records at `(x,z,y)` and
`(x,z,y-1)` resolve to different local type indices and at least one of the two
resolves to the empty type (id 0), no merge and no culling occurs: the
comparison leaves the previous record untouched and pushes a fresh
default-extent, all-faces record.  (The claim's unconditional "air never merges"
is false: two adjacent cells holding the identical air value resolve to the same
index and do merge, see the counterexample.) -/
theorem pass1_air_no_interaction (sec : Section) (blocks : Array Block)
    (g : Array GroupedBlock) (x z y : Nat) (hy : 0 < y)
    (hsz : blocks.size < 4096)
    (hneq : (g.getD (x * 256 + z * 16 + y - 1) default).block_id
      ≠ (lookupOrPush blocks (sec x z y)).2)
    (hair : (sec x z y).id = 0 ∨
      ((lookupOrPush blocks (sec x z y)).1.getD
        (g.getD (x * 256 + z * 16 + y - 1) default).block_id default).id = 0) :
    pass1Cell sec (blocks, g) x z y =
      ((lookupOrPush blocks (sec x z y)).1,
       g.push (GroupedBlock.new (lookupOrPush blocks (sec x z y)).2)) := by
  rcases hlp : lookupOrPush blocks (sec x z y) with ⟨bl2, id2⟩
  rw [hlp] at hneq hair
  simp only at hneq hair
  have hid2 : id2 ≤ blocks.size := by
    have := lookupOrPush_le blocks (sec x z y)
    rw [hlp] at this
    exact this
  have hbid : (GroupedBlock.new id2).block_id = id2 := by
    rw [block_id_new]
    exact Nat.mod_eq_of_lt (by omega)
  have hres : bl2.getD id2 default = sec x z y := by
    have := lookupOrPush_getD blocks (sec x z y)
    rw [hlp] at this
    exact this
  simp only [pass1Cell, hlp]
  rw [if_pos hy, hbid]
  have hmerge : ((g.getD (x * 256 + z * 16 + y - 1) default).block_id == id2) = false := by
    rw [nat_beq_eq_decide]
    exact decide_eq_false hneq
  rw [hmerge]
  simp only [Bool.false_eq_true, if_false]
  have hcd : (((bl2.getD (g.getD (x * 256 + z * 16 + y - 1) default).block_id
        default).id != 0) &&
      ((bl2.getD id2 default).id != 0)) = false := by
    rcases hair with hair | hair
    · have hB : ((bl2.getD id2 default).id != 0) = false := by
        rw [hres, hair]
        rfl
      rw [hB, Bool.and_false]
    · have hA : ((bl2.getD (g.getD (x * 256 + z * 16 + y - 1) default).block_id
          default).id != 0) = false := by
        rw [hair]
        rfl
      rw [hA, Bool.false_and]
  rw [hcd]
  simp

/-- C2 counterexample: in a section whose cells all hold the identical empty
(air, id 0) voxel value, Pass 1's very first comparison — cells `(0,0,0)` and
`(0,0,1)`, both air — resolves both to local type index 0 and merges them: the
record at flat index 0 has its merged/absorbed flag set, contradicting the
claim that a comparison involving an air cell never merges. -/
theorem pass1_air_no_interaction_cex :
    ((fun _ _ _ => (⟨0, 0⟩ : Block)) 0 0 0).id = 0 ∧
    ((fun _ _ _ => (⟨0, 0⟩ : Block)) 0 0 1).id = 0 ∧
    ((pass1Upto (fun _ _ _ => (⟨0, 0⟩ : Block)) 2).2.getD 0 default).is_in_group
      = true := by
  refine ⟨rfl, rfl, ?_⟩
  decide

/-- Witness for C2 (amended): an air cell below an opaque cell of a different
value — no merge, no culling. -/
theorem pass1_air_no_interaction_witness :
    (0 : Nat) < 1 ∧
    (#[(⟨0, 0⟩ : Block)] : Array Block).size < 4096 ∧
    ((#[GroupedBlock.new 0] : Array GroupedBlock).getD (0 * 256 + 0 * 16 + 1 - 1)
        default).block_id
      ≠ (lookupOrPush #[(⟨0, 0⟩ : Block)]
          ((fun _ _ y => if y = 0 then (⟨0, 0⟩ : Block) else ⟨7, 0⟩) 0 0 1)).2 ∧
    pass1Cell (fun _ _ y => if y = 0 then (⟨0, 0⟩ : Block) else ⟨7, 0⟩)
        (#[(⟨0, 0⟩ : Block)], #[GroupedBlock.new 0]) 0 0 1 =
      ((lookupOrPush #[(⟨0, 0⟩ : Block)]
          ((fun _ _ y => if y = 0 then (⟨0, 0⟩ : Block) else ⟨7, 0⟩) 0 0 1)).1,
       (#[GroupedBlock.new 0] : Array GroupedBlock).push
         (GroupedBlock.new (lookupOrPush #[(⟨0, 0⟩ : Block)]
           ((fun _ _ y => if y = 0 then (⟨0, 0⟩ : Block) else ⟨7, 0⟩) 0 0 1)).2)) :=
  ⟨by decide, by decide, by decide,
   pass1_air_no_interaction (fun _ _ y => if y = 0 then ⟨0, 0⟩ else ⟨7, 0⟩)
     #[⟨0, 0⟩] #[GroupedBlock.new 0] 0 0 1 (by decide) (by decide) (by decide)
     (Or.inr (by decide))⟩

/-- C3 (amended): in Pass 2, for a pair of records at flat indices `idx` and
`idx - 16` where neither record is absorbed, the two records resolve to
different local types, both types are opaque, and the two y-extents are
EQUAL (the implementation culls only under equality, not under `≥`), the BACK
face bit is cleared on the current record and the FRONT face bit on the
neighbour. -/
theorem pass2_cull_on_equal_extent (bl : Array Block) (g : Array GroupedBlock)
    (x z y : Nat) (hz : z ≠ 0)
    (h1 : (g.getD (x * 256 + z * 16 + y) default).is_in_group = false)
    (h2 : (g.getD (x * 256 + z * 16 + y - 16) default).is_in_group = false)
    (h3 : (g.getD (x * 256 + z * 16 + y) default).extentY
        = (g.getD (x * 256 + z * 16 + y - 16) default).extentY)
    (h4 : (g.getD (x * 256 + z * 16 + y) default).block_id
        ≠ (g.getD (x * 256 + z * 16 + y - 16) default).block_id)
    (h5 : (bl.getD (g.getD (x * 256 + z * 16 + y) default).block_id default).id ≠ 0)
    (h6 : (bl.getD (g.getD (x * 256 + z * 16 + y - 16) default).block_id default).id ≠ 0) :
    pass2Cell bl g x z y
      = (g.set! (x * 256 + z * 16 + y)
          ((g.getD (x * 256 + z * 16 + y) default).set_faces
            ((g.getD (x * 256 + z * 16 + y) default).faces.disable Face.BACK))).set!
          (x * 256 + z * 16 + y - 16)
          ((g.getD (x * 256 + z * 16 + y - 16) default).set_faces
            ((g.getD (x * 256 + z * 16 + y - 16) default).faces.disable Face.FRONT)) := by
  simp only [pass2Cell]
  rw [if_neg hz, h1]
  simp only [Bool.false_eq_true, if_false]
  have hcd : (((bl.getD (g.getD (x * 256 + z * 16 + y) default).block_id default).id != 0) &&
      ((bl.getD (g.getD (x * 256 + z * 16 + y - 16) default).block_id default).id != 0) &&
      decide ((g.getD (x * 256 + z * 16 + y) default).extentY
        ≤ (g.getD (x * 256 + z * 16 + y - 16) default).extentY)) = true := by
    have e5 : ((bl.getD (g.getD (x * 256 + z * 16 + y) default).block_id default).id != 0)
        = true := by
      rw [bne_iff_ne]
      exact h5
    have e6 : ((bl.getD (g.getD (x * 256 + z * 16 + y - 16) default).block_id default).id != 0)
        = true := by
      rw [bne_iff_ne]
      exact h6
    have e3 : decide ((g.getD (x * 256 + z * 16 + y) default).extentY
        ≤ (g.getD (x * 256 + z * 16 + y - 16) default).extentY) = true := by
      rw [decide_eq_true_eq, h3]
    rw [e5, e6, e3]
    rfl
  rw [h2]
  simp only [Bool.false_eq_true, if_false]
  have hy : ((g.getD (x * 256 + z * 16 + y) default).extentY
      == (g.getD (x * 256 + z * 16 + y - 16) default).extentY) = true := by
    rw [nat_beq_eq_decide, decide_eq_true_eq]
    exact h3
  rw [hy]
  simp only [if_true]
  have hm : ((g.getD (x * 256 + z * 16 + y) default).block_id
      == (g.getD (x * 256 + z * 16 + y - 16) default).block_id) = false := by
    rw [nat_beq_eq_decide]
    exact decide_eq_false h4
  rw [hm]
  simp only [Bool.false_eq_true, if_false]
  rw [hcd]
  simp

/-- C3 counterexample: current at flat index 16 (x=0, z=1, y=0) with y-extent 1,
non-absorbed neighbour at index 0 with y-extent 2: different opaque types, no
merge, and the neighbour's y-extent is `≥` the current's — yet `pass2Cell`
changes nothing (the cull is gated on y-extent EQUALITY): both records keep all
six faces, contradicting the claim that BACK/FRONT get cleared under `≥`. -/
theorem pass2_cull_on_equal_extent_cex :
    (((((Array.mkArray 17 (default : GroupedBlock)).set! 0
          ((GroupedBlock.new 1).extend_to 1 2 1)).set! 16
          (GroupedBlock.new 0)).getD 16 default).is_in_group = false ∧
     ((((Array.mkArray 17 (default : GroupedBlock)).set! 0
          ((GroupedBlock.new 1).extend_to 1 2 1)).set! 16
          (GroupedBlock.new 0)).getD 0 default).is_in_group = false ∧
     ((((Array.mkArray 17 (default : GroupedBlock)).set! 0
          ((GroupedBlock.new 1).extend_to 1 2 1)).set! 16
          (GroupedBlock.new 0)).getD 16 default).block_id
       ≠ ((((Array.mkArray 17 (default : GroupedBlock)).set! 0
          ((GroupedBlock.new 1).extend_to 1 2 1)).set! 16
          (GroupedBlock.new 0)).getD 0 default).block_id ∧
     ((((Array.mkArray 17 (default : GroupedBlock)).set! 0
          ((GroupedBlock.new 1).extend_to 1 2 1)).set! 16
          (GroupedBlock.new 0)).getD 16 default).extentY
       ≤ ((((Array.mkArray 17 (default : GroupedBlock)).set! 0
          ((GroupedBlock.new 1).extend_to 1 2 1)).set! 16
          (GroupedBlock.new 0)).getD 0 default).extentY ∧
     ((#[(⟨1, 0⟩ : Block), ⟨2, 0⟩] : Array Block).getD 0 default).id ≠ 0 ∧
     ((#[(⟨1, 0⟩ : Block), ⟨2, 0⟩] : Array Block).getD 1 default).id ≠ 0) ∧
    ((pass2Cell #[(⟨1, 0⟩ : Block), ⟨2, 0⟩]
        (((Array.mkArray 17 (default : GroupedBlock)).set! 0
          ((GroupedBlock.new 1).extend_to 1 2 1)).set! 16
          (GroupedBlock.new 0)) 0 1 0).getD 16 default).faces = Face.all ∧
    ((pass2Cell #[(⟨1, 0⟩ : Block), ⟨2, 0⟩]
        (((Array.mkArray 17 (default : GroupedBlock)).set! 0
          ((GroupedBlock.new 1).extend_to 1 2 1)).set! 16
          (GroupedBlock.new 0)) 0 1 0).getD 0 default).faces = Face.all := by
  refine ⟨⟨?_, ?_, ?_, ?_, ?_, ?_⟩, ?_, ?_⟩ <;> decide

/-- Witness for C3 (amended): the same configuration with EQUAL y-extents does
get its BACK/FRONT pair culled. -/
theorem pass2_cull_on_equal_extent_witness :
    (1 : Nat) ≠ 0 ∧
    pass2Cell #[(⟨1, 0⟩ : Block), ⟨2, 0⟩]
        (((Array.mkArray 17 (default : GroupedBlock)).set! 0
          (GroupedBlock.new 1)).set! 16 (GroupedBlock.new 0)) 0 1 0
      = (((((Array.mkArray 17 (default : GroupedBlock)).set! 0
            (GroupedBlock.new 1)).set! 16 (GroupedBlock.new 0)).set!
            (0 * 256 + 1 * 16 + 0)
            (((((Array.mkArray 17 (default : GroupedBlock)).set! 0
              (GroupedBlock.new 1)).set! 16 (GroupedBlock.new 0)).getD
                (0 * 256 + 1 * 16 + 0) default).set_faces
              (((((Array.mkArray 17 (default : GroupedBlock)).set! 0
                (GroupedBlock.new 1)).set! 16 (GroupedBlock.new 0)).getD
                  (0 * 256 + 1 * 16 + 0) default).faces.disable Face.BACK))).set!
          (0 * 256 + 1 * 16 + 0 - 16)
          (((((Array.mkArray 17 (default : GroupedBlock)).set! 0
            (GroupedBlock.new 1)).set! 16 (GroupedBlock.new 0)).getD
              (0 * 256 + 1 * 16 + 0 - 16) default).set_faces
            (((((Array.mkArray 17 (default : GroupedBlock)).set! 0
              (GroupedBlock.new 1)).set! 16 (GroupedBlock.new 0)).getD
                (0 * 256 + 1 * 16 + 0 - 16) default).faces.disable Face.FRONT))) :=
  ⟨by decide,
   pass2_cull_on_equal_extent #[⟨1, 0⟩, ⟨2, 0⟩]
     (((Array.mkArray 17 (default : GroupedBlock)).set! 0
       (GroupedBlock.new 1)).set! 16 (GroupedBlock.new 0)) 0 1 0
     (by decide) (by decide) (by decide) (by decide) (by decide) (by decide)
     (by decide)⟩

/-! ## The Pass 1 invariant (type table and record resolution) -/

lemma cell_recompose (n : Nat) (h : n < 4096) :
    cellX n * 256 + cellZ n * 16 + cellY n = n := by
  unfold cellX cellZ cellY
  omega

lemma pass1Upto_succ (sec : Section) (n : Nat) :
    pass1Upto sec (n + 1)
      = pass1Cell sec (pass1Upto sec n) (cellX n) (cellZ n) (cellY n) := by
  unfold pass1Upto
  rw [List.range_succ, List.foldl_append, List.foldl_cons, List.foldl_nil]

/-- The cells of the section in the scan order of Pass 1 (first `n` cells). -/
def scanBlocks (sec : Section) (n : Nat) : List Block :=
  (List.range n).map (fun i => sec (cellX i) (cellZ i) (cellY i))

/-- Insert a block value into the table unless an equal entry exists. -/
def firstOccurInsert (l : List Block) (b : Block) : List Block :=
  if b ∈ l then l else l ++ [b]

/-- The de-duplicated type table in first-occurrence order. -/
def firstOccurTable (bs : List Block) : List Block := bs.foldl firstOccurInsert []

lemma firstOccurInsert_nodup {l : List Block} (h : l.Nodup) (b : Block) :
    (firstOccurInsert l b).Nodup := by
  unfold firstOccurInsert
  split
  · exact h
  · next hmem => simp [List.nodup_append, h, hmem]

lemma firstOccurTable_aux_nodup (bs : List Block) :
    ∀ l : List Block, l.Nodup → (bs.foldl firstOccurInsert l).Nodup := by
  induction bs with
  | nil => intro l h; exact h
  | cons b rest ih =>
    intro l h
    rw [List.foldl_cons]
    exact ih _ (firstOccurInsert_nodup h b)

lemma firstOccurTable_nodup (bs : List Block) : (firstOccurTable bs).Nodup :=
  firstOccurTable_aux_nodup bs [] List.nodup_nil

lemma scanBlocks_succ (sec : Section) (n : Nat) :
    scanBlocks sec (n + 1)
      = scanBlocks sec n ++ [sec (cellX n) (cellZ n) (cellY n)] := by
  unfold scanBlocks
  rw [List.range_succ, List.map_append]
  rfl

lemma firstOccurTable_append_one (bs : List Block) (b : Block) :
    firstOccurTable (bs ++ [b]) = firstOccurInsert (firstOccurTable bs) b := by
  unfold firstOccurTable
  rw [List.foldl_append, List.foldl_cons, List.foldl_nil]

lemma revFindAux_none {blocks : Array Block} {b : Block} {n : Nat}
    (h : revFindAux blocks b n = none) :
    ∀ i, i < n → blocks.getD i default ≠ b := by
  induction n with
  | zero => intro i hi; omega
  | succ m ih =>
    unfold revFindAux at h
    split at h
    · exact absurd h (by simp)
    · next hne =>
      intro i hi
      rcases Nat.lt_succ_iff_lt_or_eq.mp hi with hi | hi
      · exact ih h i hi
      · subst hi
        exact hne

lemma mem_toList_iff (bl : Array Block) (b : Block) :
    b ∈ bl.toList ↔ ∃ i, i < bl.size ∧ bl.getD i default = b := by
  rw [List.mem_iff_getElem]
  constructor
  · rintro ⟨i, hi, hget⟩
    rw [Array.length_toList] at hi
    refine ⟨i, hi, ?_⟩
    rw [agetD_lt bl i default hi]
    rw [← hget]
    simp [Array.getElem_toList]
  · rintro ⟨i, hi, hget⟩
    refine ⟨i, by rw [Array.length_toList]; exact hi, ?_⟩
    rw [agetD_lt bl i default hi] at hget
    rw [← hget]
    simp [Array.getElem_toList]

/-- The table side of `lookupOrPush` is exactly a first-occurrence insert. -/
lemma lookupOrPush_toList (bl : Array Block) (b : Block) :
    (lookupOrPush bl b).1.toList = firstOccurInsert bl.toList b := by
  unfold lookupOrPush firstOccurInsert
  split
  case _ i heq =>
    obtain ⟨hi, hget⟩ := revFindAux_some heq
    rw [if_pos ((mem_toList_iff bl b).mpr ⟨i, hi, hget⟩)]
  case _ heq =>
    have hnm : b ∉ bl.toList := by
      rw [mem_toList_iff]
      rintro ⟨i, hi, hget⟩
      exact revFindAux_none heq i hi hget
    rw [if_neg hnm]
    simp

lemma lookupOrPush_lt_size (bl : Array Block) (b : Block) :
    (lookupOrPush bl b).2 < (lookupOrPush bl b).1.size := by
  unfold lookupOrPush
  split
  case _ i heq => exact (revFindAux_some heq).1
  case _ => simp

lemma lookupOrPush_getD_stable (bl : Array Block) (b : Block) (j : Nat)
    (hj : j < bl.size) :
    (lookupOrPush bl b).1.getD j default = bl.getD j default := by
  unfold lookupOrPush
  split
  · rfl
  · exact agetD_push_lt bl j b default hj

lemma firstOccurInsert_length_le (l : List Block) (b : Block) :
    (firstOccurInsert l b).length ≤ l.length + 1 := by
  unfold firstOccurInsert
  split
  · omega
  · simp

lemma res_extend {bl bl2 : Array Block} {r : GroupedBlock} {v : Block}
    (hstab : ∀ j, j < bl.size → bl2.getD j default = bl.getD j default)
    (hsz : bl.size ≤ bl2.size)
    (h : r.block_id < bl.size ∧ bl.getD r.block_id default = v) :
    r.block_id < bl2.size ∧ bl2.getD r.block_id default = v :=
  ⟨by omega, by rw [hstab r.block_id h.1]; exact h.2⟩

/-- The running invariant of Pass 1 after `n` of its 4096 steps: the record
array holds one record per processed cell, the type table is the
first-occurrence de-duplication of the processed cell values, every record's
type index resolves (through the table) to its own cell's voxel value, and the
most recently pushed record is never absorbed. -/
lemma pass1Upto_invariant (sec : Section) (n : Nat) (hn : n ≤ 4096) :
    (pass1Upto sec n).2.size = n ∧
    (pass1Upto sec n).1.size ≤ n ∧
    (pass1Upto sec n).1.toList = firstOccurTable (scanBlocks sec n) ∧
    (∀ i, i < n →
      ((pass1Upto sec n).2.getD i default).block_id < (pass1Upto sec n).1.size ∧
      (pass1Upto sec n).1.getD ((pass1Upto sec n).2.getD i default).block_id default
        = sec (cellX i) (cellZ i) (cellY i)) ∧
    (0 < n → ((pass1Upto sec n).2.getD (n - 1) default).is_in_group = false) := by
  induction n with
  | zero =>
    exact ⟨rfl, by simp [pass1Upto], rfl, fun i hi => absurd hi (by omega), by omega⟩
  | succ n ih =>
    have hn' : n ≤ 4096 := by omega
    have hn4 : n < 4096 := by omega
    obtain ⟨hsz, htsz, htab, hres, htop⟩ := ih hn'
    rw [pass1Upto_succ]
    rcases hp : pass1Upto sec n with ⟨bl, g⟩
    rw [hp] at hsz htsz htab hres htop
    simp only at hsz htsz htab hres htop
    rcases hlp : lookupOrPush bl (sec (cellX n) (cellZ n) (cellY n)) with ⟨bl2, id2⟩
    have hle : id2 ≤ bl.size := by
      have := lookupOrPush_le bl (sec (cellX n) (cellZ n) (cellY n))
      rw [hlp] at this
      exact this
    have hlt : id2 < bl2.size := by
      have := lookupOrPush_lt_size bl (sec (cellX n) (cellZ n) (cellY n))
      rw [hlp] at this
      exact this
    have hgd : bl2.getD id2 default = sec (cellX n) (cellZ n) (cellY n) := by
      have := lookupOrPush_getD bl (sec (cellX n) (cellZ n) (cellY n))
      rw [hlp] at this
      exact this
    have htl : bl2.toList = firstOccurInsert bl.toList (sec (cellX n) (cellZ n) (cellY n)) := by
      have := lookupOrPush_toList bl (sec (cellX n) (cellZ n) (cellY n))
      rw [hlp] at this
      exact this
    have hbsz : bl.size ≤ bl2.size := by
      have := lookupOrPush_size bl (sec (cellX n) (cellZ n) (cellY n))
      rw [hlp] at this
      exact this
    have hstab : ∀ j, j < bl.size → bl2.getD j default = bl.getD j default := by
      intro j hj
      have := lookupOrPush_getD_stable bl (sec (cellX n) (cellZ n) (cellY n)) j hj
      rw [hlp] at this
      exact this
    have hid2_4096 : id2 < 4096 := by omega
    have hbid2 : (GroupedBlock.new id2).block_id = id2 := by
      rw [block_id_new]
      exact Nat.mod_eq_of_lt hid2_4096
    have hfresh : (GroupedBlock.new id2).is_in_group = false :=
      is_in_group_new_of_lt id2 (by omega)
    have htab2 : bl2.toList = firstOccurTable (scanBlocks sec (n + 1)) := by
      rw [htl, htab, scanBlocks_succ, firstOccurTable_append_one]
    have htsz2 : bl2.size ≤ n + 1 := by
      have h1 : bl2.toList.length = bl2.size := Array.length_toList
      have h2 : bl.toList.length = bl.size := Array.length_toList
      have h3 := firstOccurInsert_length_le bl.toList (sec (cellX n) (cellZ n) (cellY n))
      rw [← h1, htl]
      omega
    simp only [pass1Cell, hlp]
    by_cases hy : 0 < cellY n
    · rw [if_pos hy]
      have hbidx : cellX n * 256 + cellZ n * 16 + cellY n - 1 = n - 1 := by
        rw [cell_recompose n hn4]
      have hn1 : 0 < n := by
        have := cell_recompose n hn4
        omega
      have hglt : n - 1 < g.size := by omega
      rw [hbidx]
      -- the record below and its properties
      by_cases hm : (g.getD (n - 1) default).block_id == (GroupedBlock.new id2).block_id
      · -- merge branch
        rw [if_pos hm]
        have hCbid : ((GroupedBlock.new id2).extend_to 1
            (1 + (g.getD (n - 1) default).extentY) 1).block_id = id2 := by
          rw [block_id_extend_to, hbid2]
        have hCfresh : ((GroupedBlock.new id2).extend_to 1
            (1 + (g.getD (n - 1) default).extentY) 1).is_in_group = false := by
          rw [is_in_group_extend_to]
          exact hfresh
        have hAsz : (g.set! (n - 1) (g.getD (n - 1) default).toggle_group).size = n := by
          rw [asize_set]
          exact hsz
        refine ⟨?_, ?_, ?_, ?_, ?_⟩
        · simp [Array.size_push, asize_set, hsz]
        · exact htsz2
        · exact htab2
        · intro i hi
          rcases Nat.lt_succ_iff_lt_or_eq.mp hi with hi | hi
          · rw [agetD_push_lt _ _ _ _ (by omega)]
            by_cases hieq : i = n - 1
            · subst hieq
              rw [agetD_set_same _ _ _ _ (by omega)]
              rw [block_id_toggle_group]
              exact res_extend hstab hbsz (hres (n - 1) (by omega))
            · rw [agetD_set_other _ _ _ _ _ (fun hcon => hieq hcon.symm)]
              exact res_extend hstab hbsz (hres i hi)
          · subst hi
            rw [agetD_push_eq' _ _ _ _ hAsz.symm]
            rw [hCbid]
            exact ⟨hlt, hgd⟩
        · intro _
          rw [Nat.add_sub_cancel]
          rw [agetD_push_eq' _ _ _ _ hAsz.symm]
          exact hCfresh
      · rw [if_neg (by simpa using hm)]
        by_cases hcd : (((bl2.getD (g.getD (n - 1) default).block_id default).id != 0) &&
            ((bl2.getD (GroupedBlock.new id2).block_id default).id != 0)) = true
        · -- cull branch
          rw [if_pos hcd]
          have hCbid : ((GroupedBlock.new id2).set_faces
              ((GroupedBlock.new id2).faces.disable Face.BOTTOM)).block_id = id2 := by
            rw [block_id_set_faces, hbid2]
          have hCfresh : ((GroupedBlock.new id2).set_faces
              ((GroupedBlock.new id2).faces.disable Face.BOTTOM)).is_in_group = false := by
            rw [is_in_group_set_faces]
            exact hfresh
          have hAsz : (g.set! (n - 1) ((g.getD (n - 1) default).set_faces
              ((g.getD (n - 1) default).faces.disable Face.TOP))).size = n := by
            rw [asize_set]
            exact hsz
          refine ⟨?_, ?_, ?_, ?_, ?_⟩
          · simp [Array.size_push, asize_set, hsz]
          · exact htsz2
          · exact htab2
          · intro i hi
            rcases Nat.lt_succ_iff_lt_or_eq.mp hi with hi | hi
            · rw [agetD_push_lt _ _ _ _ (by omega)]
              by_cases hieq : i = n - 1
              · subst hieq
                rw [agetD_set_same _ _ _ _ (by omega)]
                rw [block_id_set_faces]
                exact res_extend hstab hbsz (hres (n - 1) (by omega))
              · rw [agetD_set_other _ _ _ _ _ (fun hcon => hieq hcon.symm)]
                exact res_extend hstab hbsz (hres i hi)
            · subst hi
              rw [agetD_push_eq' _ _ _ _ hAsz.symm]
              rw [hCbid]
              exact ⟨hlt, hgd⟩
          · intro _
            rw [Nat.add_sub_cancel]
            rw [agetD_push_eq' _ _ _ _ hAsz.symm]
            exact hCfresh
        · -- no interaction
          rw [if_neg hcd]
          refine ⟨?_, ?_, ?_, ?_, ?_⟩
          · simp [Array.size_push, hsz]
          · exact htsz2
          · exact htab2
          · intro i hi
            rcases Nat.lt_succ_iff_lt_or_eq.mp hi with hi | hi
            · rw [agetD_push_lt _ _ _ _ (by omega)]
              exact res_extend hstab hbsz (hres i hi)
            · subst hi
              rw [agetD_push_eq' _ _ _ _ hsz.symm]
              rw [hbid2]
              exact ⟨hlt, hgd⟩
          · intro _
            rw [Nat.add_sub_cancel]
            rw [agetD_push_eq' _ _ _ _ hsz.symm]
            exact hfresh
    · rw [if_neg hy]
      refine ⟨?_, ?_, ?_, ?_, ?_⟩
      · simp [Array.size_push, hsz]
      · exact htsz2
      · exact htab2
      · intro i hi
        rcases Nat.lt_succ_iff_lt_or_eq.mp hi with hi | hi
        · rw [agetD_push_lt _ _ _ _ (by omega)]
          exact res_extend hstab hbsz (hres i hi)
        · subst hi
          rw [agetD_push_eq' _ _ _ _ hsz.symm]
          rw [hbid2]
          exact ⟨hlt, hgd⟩
      · intro _
        rw [Nat.add_sub_cancel]
        rw [agetD_push_eq' _ _ _ _ hsz.symm]
        exact hfresh

/-- C8: Pass 1's local voxel-type table is a deterministic function of the
section contents alone — it is exactly the first-occurrence de-duplication of
the cell values in the fixed x-outer/z-middle/y-inner scan order (so two
independent runs on the same section produce identical tables), its entries
are pairwise distinct (so each distinct voxel type gets the unique index of
its first occurrence), and every cell's record carries a type index that
resolves through the table to that cell's own voxel value. -/
theorem pass1_type_table_deterministic (sec : Section) :
    (pass1 sec).1.toList = firstOccurTable (scanBlocks sec 4096) ∧
    (pass1 sec).1.toList.Nodup ∧
    ∀ i, i < 4096 →
      ((pass1 sec).2.getD i default).block_id < (pass1 sec).1.size ∧
      (pass1 sec).1.getD ((pass1 sec).2.getD i default).block_id default
        = sec (cellX i) (cellZ i) (cellY i) := by
  obtain ⟨_, _, htab, hres, _⟩ := pass1Upto_invariant sec 4096 (Nat.le_refl _)
  unfold pass1
  refine ⟨htab, ?_, hres⟩
  rw [htab]
  exact firstOccurTable_nodup _

/-! ## C9 infrastructure: absorbed records are never mutated again -/

lemma default_not_in_group : (default : GroupedBlock).is_in_group = false := by decide

/-- One step of Pass 1 never touches an absorbed record: the only slot it
mutates is the top one, which by the running invariant is never absorbed. -/
lemma pass1_step_absorbed_frozen (sec : Section) (n k : Nat) (hn : n < 4096)
    (habs : ((pass1Upto sec n).2.getD k default).is_in_group = true) :
    (pass1Upto sec (n + 1)).2.getD k default
      = (pass1Upto sec n).2.getD k default := by
  obtain ⟨hsz, _, _, _, htop⟩ := pass1Upto_invariant sec n (by omega)
  rw [pass1Upto_succ]
  rcases hp : pass1Upto sec n with ⟨bl, g⟩
  rw [hp] at hsz htop habs
  simp only at hsz htop habs ⊢
  have hklt : k < n := by
    by_contra hk
    rw [agetD_out g k default (by omega)] at habs
    rw [default_not_in_group] at habs
    exact Bool.false_ne_true habs
  have hkne : k ≠ n - 1 := by
    intro hkeq
    subst hkeq
    rw [htop (by omega)] at habs
    exact Bool.false_ne_true habs
  rcases hlp : lookupOrPush bl (sec (cellX n) (cellZ n) (cellY n)) with ⟨bl2, id2⟩
  simp only [pass1Cell, hlp]
  by_cases hy : 0 < cellY n
  · rw [if_pos hy]
    rw [cell_recompose n hn]
    by_cases hm : (g.getD (n - 1) default).block_id == (GroupedBlock.new id2).block_id
    · rw [if_pos hm]
      simp only
      rw [agetD_push_lt _ _ _ _ (by rw [asize_set]; omega)]
      rw [agetD_set_other _ _ _ _ _ (fun hcon => hkne hcon.symm)]
    · rw [if_neg (by simpa using hm)]
      by_cases hcd : (((bl2.getD (g.getD (n - 1) default).block_id default).id != 0) &&
          ((bl2.getD (GroupedBlock.new id2).block_id default).id != 0)) = true
      · rw [if_pos hcd]
        simp only
        rw [agetD_push_lt _ _ _ _ (by rw [asize_set]; omega)]
        rw [agetD_set_other _ _ _ _ _ (fun hcon => hkne hcon.symm)]
      · rw [if_neg hcd]
        simp only
        rw [agetD_push_lt _ _ _ _ (by omega)]
  · rw [if_neg hy]
    simp only
    rw [agetD_push_lt _ _ _ _ (by omega)]

/-- Pass 2 never mutates an absorbed record: the current slot is only written
when not absorbed, and the neighbour slot only inside the branch where it is
known not absorbed. -/
lemma pass2Cell_absorbed_frozen (bl : Array Block) (g : Array GroupedBlock)
    (x z y k : Nat) (habs : (g.getD k default).is_in_group = true) :
    (pass2Cell bl g x z y).getD k default = g.getD k default := by
  simp only [pass2Cell]
  by_cases hz : z = 0
  · rw [if_pos hz]
  · rw [if_neg hz]
    by_cases hcur : (g.getD (x * 256 + z * 16 + y) default).is_in_group
    · rw [if_pos hcur]
    · rw [if_neg hcur]
      have hkidx : k ≠ x * 256 + z * 16 + y := by
        intro hkeq
        rw [hkeq] at habs
        exact hcur habs
      by_cases hnb : (g.getD (x * 256 + z * 16 + y - 16) default).is_in_group
      · rw [if_pos hnb]
        by_cases hcd : (((bl.getD (g.getD (x * 256 + z * 16 + y) default).block_id
              default).id != 0) &&
            ((bl.getD (g.getD (x * 256 + z * 16 + y - 16) default).block_id
              default).id != 0) &&
            decide ((g.getD (x * 256 + z * 16 + y) default).extentY
              ≤ (g.getD (x * 256 + z * 16 + y - 16) default).extentY)) = true
        · rw [if_pos hcd]
          exact agetD_set_other _ _ _ _ _ (fun hcon => hkidx hcon.symm)
        · rw [if_neg hcd]
      · rw [if_neg hnb]
        have hkidx2 : k ≠ x * 256 + z * 16 + y - 16 := by
          intro hkeq
          rw [hkeq] at habs
          rw [habs] at hnb
          exact hnb rfl
        by_cases heq : (g.getD (x * 256 + z * 16 + y) default).extentY
            == (g.getD (x * 256 + z * 16 + y - 16) default).extentY
        · rw [if_pos heq]
          by_cases hm : (g.getD (x * 256 + z * 16 + y) default).block_id
              == (g.getD (x * 256 + z * 16 + y - 16) default).block_id
          · rw [if_pos hm]
            rw [agetD_set_other _ _ _ _ _ (fun hcon => hkidx hcon.symm)]
            exact agetD_set_other _ _ _ _ _ (fun hcon => hkidx2 hcon.symm)
          · rw [if_neg hm]
            by_cases hcd : (((bl.getD (g.getD (x * 256 + z * 16 + y) default).block_id
                  default).id != 0) &&
                ((bl.getD (g.getD (x * 256 + z * 16 + y - 16) default).block_id
                  default).id != 0) &&
                decide ((g.getD (x * 256 + z * 16 + y) default).extentY
                  ≤ (g.getD (x * 256 + z * 16 + y - 16) default).extentY)) = true
            · rw [if_pos hcd]
              rw [agetD_set_other _ _ _ _ _ (fun hcon => hkidx2 hcon.symm)]
              exact agetD_set_other _ _ _ _ _ (fun hcon => hkidx hcon.symm)
            · rw [if_neg hcd]
        · rw [if_neg heq]

/-- Pass 3 never mutates an absorbed record (same argument as Pass 2). -/
lemma pass3Cell_absorbed_frozen (bl : Array Block) (g : Array GroupedBlock)
    (x z y k : Nat) (habs : (g.getD k default).is_in_group = true) :
    (pass3Cell bl g x z y).getD k default = g.getD k default := by
  simp only [pass3Cell]
  by_cases hx : x = 0
  · rw [if_pos hx]
  · rw [if_neg hx]
    by_cases hcur : (g.getD (x * 256 + z * 16 + y) default).is_in_group
    · rw [if_pos hcur]
    · rw [if_neg hcur]
      have hkidx : k ≠ x * 256 + z * 16 + y := by
        intro hkeq
        rw [hkeq] at habs
        exact hcur habs
      by_cases hnb : (g.getD (x * 256 + z * 16 + y - 256) default).is_in_group
      · rw [if_pos hnb]
        by_cases hcd : (((bl.getD (g.getD (x * 256 + z * 16 + y) default).block_id
              default).id != 0) &&
            ((bl.getD (g.getD (x * 256 + z * 16 + y - 256) default).block_id
              default).id != 0) &&
            decide ((g.getD (x * 256 + z * 16 + y) default).extentY
              ≤ (g.getD (x * 256 + z * 16 + y - 256) default).extentY) &&
            decide ((g.getD (x * 256 + z * 16 + y) default).extentZ
              ≤ (g.getD (x * 256 + z * 16 + y - 256) default).extentZ)) = true
        · rw [if_pos hcd]
          exact agetD_set_other _ _ _ _ _ (fun hcon => hkidx hcon.symm)
        · rw [if_neg hcd]
      · rw [if_neg hnb]
        have hkidx2 : k ≠ x * 256 + z * 16 + y - 256 := by
          intro hkeq
          rw [hkeq] at habs
          rw [habs] at hnb
          exact hnb rfl
        by_cases heq : ((g.getD (x * 256 + z * 16 + y) default).extentY
            == (g.getD (x * 256 + z * 16 + y - 256) default).extentY) &&
            ((g.getD (x * 256 + z * 16 + y) default).extentZ
            == (g.getD (x * 256 + z * 16 + y - 256) default).extentZ)
        · rw [if_pos heq]
          by_cases hm : (g.getD (x * 256 + z * 16 + y) default).block_id
              == (g.getD (x * 256 + z * 16 + y - 256) default).block_id
          · rw [if_pos hm]
            rw [agetD_set_other _ _ _ _ _ (fun hcon => hkidx hcon.symm)]
            exact agetD_set_other _ _ _ _ _ (fun hcon => hkidx2 hcon.symm)
          · rw [if_neg hm]
            by_cases hcd : (((bl.getD (g.getD (x * 256 + z * 16 + y) default).block_id
                  default).id != 0) &&
                ((bl.getD (g.getD (x * 256 + z * 16 + y - 256) default).block_id
                  default).id != 0) &&
                decide ((g.getD (x * 256 + z * 16 + y) default).extentY
                  ≤ (g.getD (x * 256 + z * 16 + y - 256) default).extentY) &&
                decide ((g.getD (x * 256 + z * 16 + y) default).extentZ
                  ≤ (g.getD (x * 256 + z * 16 + y - 256) default).extentZ)) = true
            · rw [if_pos hcd]
              rw [agetD_set_other _ _ _ _ _ (fun hcon => hkidx2 hcon.symm)]
              exact agetD_set_other _ _ _ _ _ (fun hcon => hkidx hcon.symm)
            · rw [if_neg hcd]
        · rw [if_neg heq]

lemma pass2Upto_succ (bl : Array Block) (g : Array GroupedBlock) (n : Nat) :
    pass2Upto bl g (n + 1)
      = pass2Cell bl (pass2Upto bl g n) (cellX n) (cellZ n) (cellY n) := by
  unfold pass2Upto
  rw [List.range_succ, List.foldl_append, List.foldl_cons, List.foldl_nil]

lemma pass2Upto_zero (bl : Array Block) (g : Array GroupedBlock) :
    pass2Upto bl g 0 = g := rfl

lemma pass3Upto_zero (bl : Array Block) (g : Array GroupedBlock) :
    pass3Upto bl g 0 = g := rfl

lemma pass3Upto_succ (bl : Array Block) (g : Array GroupedBlock) (n : Nat) :
    pass3Upto bl g (n + 1)
      = pass3Cell bl (pass3Upto bl g n) (cellX n) (cellZ n) (cellY n) := by
  unfold pass3Upto
  rw [List.range_succ, List.foldl_append, List.foldl_cons, List.foldl_nil]

/-- The record array after `t` elementary steps of the three-pass schedule:
steps 0..4095 run Pass 1, steps 4096..8191 run Pass 2, steps 8192..12287 run
Pass 3, each pass visiting the 4096 cells in flat-index order. -/
def stateAt (sec : Section) (t : Nat) : Array GroupedBlock :=
  if t ≤ 4096 then (pass1Upto sec t).2
  else if t ≤ 8192 then pass2Upto (pass1 sec).1 (pass1 sec).2 (t - 4096)
  else pass3Upto (pass1 sec).1 (pass2 (pass1 sec).1 (pass1 sec).2) (t - 8192)

lemma stateAt_low (sec : Section) (t : Nat) (h : t ≤ 4096) :
    stateAt sec t = (pass1Upto sec t).2 := by
  unfold stateAt
  rw [if_pos h]

lemma stateAt_mid (sec : Section) (t : Nat) (h1 : 4096 ≤ t) (h2 : t ≤ 8192) :
    stateAt sec t = pass2Upto (pass1 sec).1 (pass1 sec).2 (t - 4096) := by
  unfold stateAt
  by_cases h : t ≤ 4096
  · have ht : t = 4096 := by omega
    subst ht
    rw [if_pos h]
    rfl
  · rw [if_neg h, if_pos h2]

lemma stateAt_hi (sec : Section) (t : Nat) (h1 : 8192 ≤ t) (h2 : t ≤ 12288) :
    stateAt sec t
      = pass3Upto (pass1 sec).1 (pass2 (pass1 sec).1 (pass1 sec).2) (t - 8192) := by
  unfold stateAt
  by_cases h : t ≤ 4096
  · omega
  · by_cases h' : t ≤ 8192
    · have ht : t = 8192 := by omega
      subst ht
      rw [if_neg h, if_pos h']
      rw [show (8192 : Nat) - 8192 = 0 from by norm_num, pass3Upto_zero]
      rw [show (8192 : Nat) - 4096 = 4096 from by norm_num]
      rfl
    · rw [if_neg h, if_neg h']

lemma stateAt_step_frozen (sec : Section) (t k : Nat) (ht : t < 12288)
    (habs : ((stateAt sec t).getD k default).is_in_group = true) :
    (stateAt sec (t + 1)).getD k default = (stateAt sec t).getD k default := by
  by_cases h1 : t < 4096
  · rw [stateAt_low sec t (by omega)] at habs ⊢
    rw [stateAt_low sec (t + 1) (by omega)]
    exact pass1_step_absorbed_frozen sec t k h1 habs
  · by_cases h2 : t < 8192
    · rw [stateAt_mid sec t (by omega) (by omega)] at habs ⊢
      rw [stateAt_mid sec (t + 1) (by omega) (by omega)]
      rw [show t + 1 - 4096 = (t - 4096) + 1 from by omega, pass2Upto_succ]
      exact pass2Cell_absorbed_frozen _ _ _ _ _ _ habs
    · rw [stateAt_hi sec t (by omega) (by omega)] at habs ⊢
      rw [stateAt_hi sec (t + 1) (by omega) (by omega)]
      rw [show t + 1 - 8192 = (t - 8192) + 1 from by omega, pass3Upto_succ]
      exact pass3Cell_absorbed_frozen _ _ _ _ _ _ habs

/-- C9: once a record's merged/absorbed flag is set at any instant of the
three-pass schedule, that record's bitfield is never mutated again by any
later step of any pass — its type index, extent and face mask are frozen at
absorption time, and in particular the flag is never toggled back. -/
theorem absorbed_records_frozen (sec : Section) (t t' k : Nat)
    (htt : t ≤ t') (ht' : t' ≤ 12288)
    (habs : ((stateAt sec t).getD k default).is_in_group = true) :
    (stateAt sec t').getD k default = (stateAt sec t).getD k default := by
  revert ht'
  induction t', htt using Nat.le_induction with
  | base => intro _; rfl
  | succ m hm ih =>
    intro hm1
    have hprev := ih (by omega)
    have habs_m : ((stateAt sec m).getD k default).is_in_group = true := by
      rw [hprev]
      exact habs
    rw [stateAt_step_frozen sec m k (by omega) habs_m]
    exact hprev

/-- Witness for C9: in the uniform section, the record at flat index 0 is
absorbed by step 2 of Pass 1 and unchanged at step 3. -/
theorem absorbed_records_frozen_witness :
    2 ≤ 3 ∧ (3 : Nat) ≤ 12288 ∧
    (((stateAt (fun _ _ _ => (⟨1, 0⟩ : Block)) 2).getD 0 default).is_in_group = true) ∧
    (stateAt (fun _ _ _ => (⟨1, 0⟩ : Block)) 3).getD 0 default
      = (stateAt (fun _ _ _ => (⟨1, 0⟩ : Block)) 2).getD 0 default :=
  ⟨by decide, by decide, by decide,
   absorbed_records_frozen (fun _ _ _ => ⟨1, 0⟩) 2 3 0 (by decide) (by decide)
     (by decide)⟩

/-! ## C1 infrastructure: closed forms of the three passes on a uniform section -/

/-- The record at flat index `i` after `n` steps of Pass 1 on a section all of
whose cells hold one identical voxel value (type index 0): extent `(1, y+1, 1)`
for a cell at height `y` (`y = 15` storing `0`, i.e. 16), all faces, and the
absorbed flag once the cell above has merged it in. -/
def p1rec (n i : Nat) : GroupedBlock :=
  ⟨0x3F000101 + (i % 16 + 1) % 16 * 16 +
    (if i + 1 < n ∧ i % 16 ≠ 15 then 0x40000000 else 0)⟩

lemma lookupOrPush_nil (b : Block) : lookupOrPush #[] b = (#[b], 0) := rfl

lemma lookupOrPush_singleton (b : Block) : lookupOrPush #[b] b = (#[b], 0) := by
  have h : (#[b] : Array Block).getD 0 default = b := by
    rw [agetD_lt _ 0 default (by simp)]
    rfl
  unfold lookupOrPush
  have h2 : revFindAux #[b] b (#[b] : Array Block).size = some 0 := by
    have hsz : (#[b] : Array Block).size = 1 := rfl
    rw [hsz]
    unfold revFindAux
    rw [if_pos h]
  rw [h2]

/-- Bit-level facts about the uniform-column records of Pass 1, for heights
`1 ≤ y ≤ 15`. -/
lemma p1_bit_facts (y : Nat) (h1 : 1 ≤ y) (h2 : y ≤ 15) :
    (⟨0x3F000101 + y * 16⟩ : GroupedBlock).block_id = 0 ∧
    (⟨0x3F000101 + y * 16⟩ : GroupedBlock).extentY = y ∧
    (⟨0x3F000101 + y * 16⟩ : GroupedBlock).toggle_group
      = ⟨0x3F000101 + y * 16 + 0x40000000⟩ ∧
    (GroupedBlock.new 0).extend_to 1 (1 + y) 1
      = ⟨0x3F000101 + (y + 1) % 16 * 16⟩ := by
  interval_cases y <;> exact ⟨by decide, by decide, by decide, by decide⟩

lemma p1rec_stable (n i : Nat) (h : i + 1 ≠ n) : p1rec (n + 1) i = p1rec n i := by
  unfold p1rec
  by_cases h15 : i % 16 = 15
  · rw [if_neg (by omega), if_neg (by omega)]
  · by_cases hlt : i + 1 < n
    · rw [if_pos ⟨by omega, h15⟩, if_pos ⟨hlt, h15⟩]
    · rw [if_neg (by omega), if_neg (by omega)]

/-- Closed form of Pass 1 on the uniform section. -/
lemma pass1_uniform (b : Block) (n : Nat) (hn : n ≤ 4096) :
    (pass1Upto (fun _ _ _ => b) n).1 = (if n = 0 then #[] else #[b]) ∧
    (pass1Upto (fun _ _ _ => b) n).2.size = n ∧
    ∀ i, i < n → (pass1Upto (fun _ _ _ => b) n).2.getD i default = p1rec n i := by
  induction n with
  | zero => exact ⟨rfl, rfl, fun i hi => absurd hi (by omega)⟩
  | succ n ih =>
    have hn' : n ≤ 4096 := by omega
    have hn4 : n < 4096 := by omega
    obtain ⟨htab, hsz, hrec⟩ := ih hn'
    rw [pass1Upto_succ]
    rcases hp : pass1Upto (fun _ _ _ => b) n with ⟨bl, g⟩
    rw [hp] at htab hsz hrec
    simp only at htab hsz hrec
    have hlp : lookupOrPush bl ((fun _ _ _ => b) (cellX n) (cellZ n) (cellY n))
        = (#[b], 0) := by
      by_cases h0 : n = 0
      · rw [htab, if_pos h0]
        exact lookupOrPush_nil b
      · rw [htab, if_neg h0]
        exact lookupOrPush_singleton b
    simp only [pass1Cell, hlp]
    by_cases hy : 0 < cellY n
    · rw [if_pos hy]
      have hyv : cellY n = n % 16 := rfl
      have hylo : 1 ≤ n % 16 := by omega
      have hyhi : n % 16 ≤ 15 := by omega
      have hn1 : 0 < n := by
        unfold cellY at hy
        omega
      have hbidx : cellX n * 256 + cellZ n * 16 + cellY n - 1 = n - 1 := by
        rw [cell_recompose n hn4]
      rw [hbidx]
      have hbv : g.getD (n - 1) default = ⟨0x3F000101 + n % 16 * 16⟩ := by
        rw [hrec (n - 1) (by omega)]
        unfold p1rec
        rw [if_neg (by omega)]
        have e1 : (n - 1) % 16 = n % 16 - 1 := by omega
        have e2 : ((n - 1) % 16 + 1) % 16 = n % 16 := by omega
        rw [e2, Nat.add_zero]
      obtain ⟨hf1, hf2, hf3, hf4⟩ := p1_bit_facts (n % 16) hylo hyhi
      rw [hbv]
      have hmg : ((⟨0x3F000101 + n % 16 * 16⟩ : GroupedBlock).block_id
          == (GroupedBlock.new 0).block_id) = true := by
        rw [hf1, block_id_new]
        rfl
      rw [hmg]
      simp only [if_true]
      rw [hf2, hf3, hf4]
      refine ⟨?_, ?_, ?_⟩
      · rw [if_neg (by omega)]
      · rw [Array.size_push, asize_set]
        omega
      · intro i hi
        rcases Nat.lt_succ_iff_lt_or_eq.mp hi with hi | hi
        · rw [agetD_push_lt _ _ _ _ (by rw [asize_set]; omega)]
          by_cases hieq : i = n - 1
          · subst hieq
            rw [agetD_set_same _ _ _ _ (by omega)]
            unfold p1rec
            rw [if_pos ⟨by omega, by omega⟩]
            have e2 : ((n - 1) % 16 + 1) % 16 = n % 16 := by omega
            rw [e2]
          · rw [agetD_set_other _ _ _ _ _ (fun hcon => hieq hcon.symm)]
            rw [hrec i hi]
            exact (p1rec_stable n i (by omega)).symm
        · subst hi
          rw [agetD_push_eq' _ _ _ _ (by rw [asize_set]; omega)]
          unfold p1rec
          rw [if_neg (by omega)]
          have e3 : (i % 16 + 1) % 16 = (i % 16 + 1) % 16 := rfl
          rfl
    · rw [if_neg hy]
      have hyv : n % 16 = 0 := by
        unfold cellY at hy
        omega
      refine ⟨?_, ?_, ?_⟩
      · rw [if_neg (by omega)]
      · rw [Array.size_push]
        omega
      · intro i hi
        rcases Nat.lt_succ_iff_lt_or_eq.mp hi with hi | hi
        · rw [agetD_push_lt _ _ _ _ (by omega)]
          rw [hrec i hi]
          by_cases hieq : i + 1 = n
          · -- the record below the column boundary: its height is 15, so the
            -- toggle condition is false on both sides
            unfold p1rec
            have h15 : i % 16 = 15 := by omega
            rw [if_neg (by omega), if_neg (by omega)]
          · exact (p1rec_stable n i (by omega)).symm
        · subst hi
          rw [agetD_push_eq' _ _ _ _ (by omega)]
          unfold p1rec
          rw [if_neg (by omega)]
          have e1 : (i % 16 + 1) % 16 * 16 = 16 := by
            have : i % 16 = 0 := hyv
            rw [this]
          rw [e1]
          decide

/-- The record at flat index `j` after `n` steps of Pass 2 on the uniform
section: Pass-1-absorbed records (height ≤ 14) are untouched; column-top
records (height 15) accumulate z-extent `z+1` at their own step and are
absorbed 16 steps later by the column to their right. -/
def p2rec (n j : Nat) : GroupedBlock :=
  if j % 16 ≠ 15 then ⟨0x3F000101 + (j % 16 + 1) * 16 + 0x40000000⟩
  else
    ⟨0x3F000100 +
      (if j < n ∧ 1 ≤ j / 16 % 16 then (j / 16 % 16 + 1) % 16 else 1) +
      (if j + 16 < n ∧ j / 16 % 16 ≤ 14 then 0x40000000 else 0)⟩

lemma p2rec_congr (n m j : Nat)
    (hzs : j % 16 = 15 →
      ((j < n ∧ 1 ≤ j / 16 % 16) ↔ (j < m ∧ 1 ≤ j / 16 % 16)))
    (htg : j % 16 = 15 →
      ((j + 16 < n ∧ j / 16 % 16 ≤ 14) ↔ (j + 16 < m ∧ j / 16 % 16 ≤ 14))) :
    p2rec n j = p2rec m j := by
  unfold p2rec
  by_cases hj : j % 16 = 15
  · have hcond : ¬ (j % 16 ≠ 15) := by omega
    simp only [if_neg hcond]
    rw [if_congr (hzs hj) rfl rfl, if_congr (htg hj) rfl rfl]
  · have hcond : j % 16 ≠ 15 := hj
    simp only [if_pos hcond]

lemma p1rec_eq_p2rec_zero (j : Nat) (hj : j < 4096) :
    p1rec 4096 j = p2rec 0 j := by
  unfold p1rec p2rec
  by_cases h15 : j % 16 = 15
  · rw [if_neg (by omega), if_neg (by omega)]
    have e1 : (j % 16 + 1) % 16 = 0 := by omega
    rw [e1, if_neg (by omega), if_neg (by omega)]
  · rw [if_pos ⟨by omega, h15⟩, if_pos h15]
    have e1 : (j % 16 + 1) % 16 = j % 16 + 1 := by omega
    rw [e1]

/-- Bit-level facts about the Pass-1-absorbed records: absorbed flag set. -/
lemma p2_absorbed_facts (m : Nat) (hm : m ≤ 14) :
    (⟨0x3F000101 + (m + 1) * 16 + 0x40000000⟩ : GroupedBlock).is_in_group = true := by
  interval_cases m <;> decide

/-- Bit-level facts about a pending column-top record with stored z-extent
`z ∈ [1,15]`. -/
lemma p2_top_facts (z : Nat) (h1 : 1 ≤ z) (h2 : z ≤ 15) :
    (⟨0x3F000100 + z⟩ : GroupedBlock).is_in_group = false ∧
    (⟨0x3F000100 + z⟩ : GroupedBlock).extentY = 16 ∧
    (⟨0x3F000100 + z⟩ : GroupedBlock).block_id = 0 ∧
    (⟨0x3F000100 + z⟩ : GroupedBlock).toggle_group
      = ⟨0x3F000100 + z + 0x40000000⟩ ∧
    (⟨0x3F000100 + z⟩ : GroupedBlock).extentZ = z := by
  interval_cases z <;> exact ⟨by decide, by decide, by decide, by decide, by decide⟩

/-- The current record at a merging Pass 2 step, and its extension. -/
lemma p2_cur_facts (z : Nat) (h1 : 1 ≤ z) (h2 : z ≤ 15) :
    (⟨0x3F000101⟩ : GroupedBlock).is_in_group = false ∧
    (⟨0x3F000101⟩ : GroupedBlock).extentY = 16 ∧
    (⟨0x3F000101⟩ : GroupedBlock).block_id = 0 ∧
    (⟨0x3F000101⟩ : GroupedBlock).extentX = 1 ∧
    (⟨0x3F000101⟩ : GroupedBlock).extentZ = 1 ∧
    (⟨0x3F000101⟩ : GroupedBlock).extend_to 1 16 (1 + z)
      = ⟨0x3F000100 + (z + 1) % 16⟩ := by
  interval_cases z <;>
    exact ⟨by decide, by decide, by decide, by decide, by decide, by decide⟩

lemma pass2Cell_size (bl : Array Block) (g : Array GroupedBlock) (x z y : Nat) :
    (pass2Cell bl g x z y).size = g.size := by
  simp only [pass2Cell]
  split
  · rfl
  · split
    · rfl
    · split
      · split
        · rw [asize_set]
        · rfl
      · split
        · split
          · rw [asize_set, asize_set]
          · split
            · rw [asize_set, asize_set]
            · rfl
        · rfl

lemma pass3Cell_size (bl : Array Block) (g : Array GroupedBlock) (x z y : Nat) :
    (pass3Cell bl g x z y).size = g.size := by
  simp only [pass3Cell]
  split
  · rfl
  · split
    · rfl
    · split
      · split
        · rw [asize_set]
        · rfl
      · split
        · split
          · rw [asize_set, asize_set]
          · split
            · rw [asize_set, asize_set]
            · rfl
        · rfl

/-- Closed form of Pass 2 on the uniform section (the type table plays no role
in the uniform run, so it is arbitrary here). -/
lemma pass2_uniform (b : Block) (bl : Array Block) (n : Nat) (hn : n ≤ 4096) :
    (pass2Upto bl (pass1 (fun _ _ _ => b)).2 n).size = 4096 ∧
    ∀ j, j < 4096 →
      (pass2Upto bl (pass1 (fun _ _ _ => b)).2 n).getD j default = p2rec n j := by
  induction n with
  | zero =>
    obtain ⟨_, hsz, hrec⟩ := pass1_uniform b 4096 (Nat.le_refl _)
    rw [pass2Upto_zero]
    unfold pass1
    exact ⟨hsz, fun j hj => by rw [hrec j hj, p1rec_eq_p2rec_zero j hj]⟩
  | succ n ih =>
    have hn' : n ≤ 4096 := by omega
    have hn4 : n < 4096 := by omega
    obtain ⟨hsz, hrec⟩ := ih hn'
    rw [pass2Upto_succ]
    constructor
    · rw [pass2Cell_size]
      exact hsz
    intro j hj
    by_cases hz : cellZ n = 0
    · have hskip : pass2Cell bl (pass2Upto bl (pass1 (fun _ _ _ => b)).2 n)
          (cellX n) (cellZ n) (cellY n)
          = pass2Upto bl (pass1 (fun _ _ _ => b)).2 n := by
        simp only [pass2Cell]
        rw [if_pos hz]
      rw [hskip, hrec j hj]
      unfold cellZ at hz
      refine p2rec_congr n (n + 1) j (fun h15 => ?_) (fun h15 => ?_) <;> omega
    · have hz1 : 1 ≤ n / 16 % 16 := by
        unfold cellZ at hz
        omega
      by_cases hy : cellY n = 15
      · -- the merging step at a column top
        have hyv : n % 16 = 15 := hy
        have hzz : n / 16 % 16 ≤ 15 := by omega
        have hidx : cellX n * 256 + cellZ n * 16 + cellY n = n :=
          cell_recompose n hn4
        have hn16 : 16 ≤ n := by
          unfold cellZ at hz1
          omega
        have hnb15 : (n - 16) % 16 = 15 := by omega
        have hnbz : (n - 16) / 16 % 16 = n / 16 % 16 - 1 := by omega
        have hcur : (pass2Upto bl (pass1 (fun _ _ _ => b)).2 n).getD n default
            = ⟨0x3F000101⟩ := by
          rw [hrec n hn4]
          unfold p2rec
          rw [if_neg (by omega : ¬ (n % 16 ≠ 15))]
          rw [if_neg (by omega : ¬ (n < n ∧ 1 ≤ n / 16 % 16))]
          rw [if_neg (by omega : ¬ (n + 16 < n ∧ n / 16 % 16 ≤ 14))]
        have hnb : (pass2Upto bl (pass1 (fun _ _ _ => b)).2 n).getD (n - 16) default
            = ⟨0x3F000100 + n / 16 % 16⟩ := by
          rw [hrec (n - 16) (by omega)]
          unfold p2rec
          rw [if_neg (by omega : ¬ ((n - 16) % 16 ≠ 15))]
          by_cases h2 : 2 ≤ n / 16 % 16
          · rw [if_pos (⟨by omega, by omega⟩ :
              (n - 16 < n ∧ 1 ≤ (n - 16) / 16 % 16))]
            rw [if_neg (by omega : ¬ (n - 16 + 16 < n ∧ (n - 16) / 16 % 16 ≤ 14))]
            have e : ((n - 16) / 16 % 16 + 1) % 16 = n / 16 % 16 := by omega
            rw [e, Nat.add_zero]
          · rw [if_neg (by omega : ¬ (n - 16 < n ∧ 1 ≤ (n - 16) / 16 % 16))]
            rw [if_neg (by omega : ¬ (n - 16 + 16 < n ∧ (n - 16) / 16 % 16 ≤ 14))]
            have h1 : n / 16 % 16 = 1 := by omega
            rw [Nat.add_zero, h1]
        obtain ⟨ht1, ht2, ht3, ht4, ht5⟩ := p2_top_facts (n / 16 % 16) hz1 hzz
        obtain ⟨hc1, hc2, hc3, hc4, hc5, hc6⟩ := p2_cur_facts (n / 16 % 16) hz1 hzz
        have hstep : pass2Cell bl (pass2Upto bl (pass1 (fun _ _ _ => b)).2 n)
            (cellX n) (cellZ n) (cellY n)
            = ((pass2Upto bl (pass1 (fun _ _ _ => b)).2 n).set! (n - 16)
                ((⟨0x3F000100 + n / 16 % 16⟩ : GroupedBlock).toggle_group)).set! n
                ((⟨0x3F000101⟩ : GroupedBlock).extend_to 1 16 (1 + n / 16 % 16)) := by
          simp only [pass2Cell]
          rw [if_neg hz, hidx, hcur, hnb, hc1]
          simp only [Bool.false_eq_true, if_false]
          rw [ht1]
          simp only [Bool.false_eq_true, if_false]
          rw [hc2, ht2]
          simp only [beq_self_eq_true, if_true]
          rw [hc3, ht3]
          simp only [beq_self_eq_true, if_true]
          rw [agetD_set_same _ _ _ _ (by omega)]
          rw [ht4]
          have he : (⟨0x3F000100 + n / 16 % 16 + 0x40000000⟩ : GroupedBlock).extentZ
              = n / 16 % 16 := by
            have h' := extentZ_toggle_group (⟨0x3F000100 + n / 16 % 16⟩ : GroupedBlock)
            rw [ht4] at h'
            rw [h', ht5]
          rw [he, hc4, hc5]
        rw [hstep]
        by_cases hjn : j = n
        · subst hjn
          rw [agetD_set_same _ _ _ _ (by rw [asize_set]; omega)]
          rw [hc6]
          unfold p2rec
          rw [if_neg (by omega : ¬ (j % 16 ≠ 15))]
          rw [if_pos (⟨by omega, hz1⟩ : (j < j + 1 ∧ 1 ≤ j / 16 % 16))]
          rw [if_neg (by omega : ¬ (j + 16 < j + 1 ∧ j / 16 % 16 ≤ 14))]
          exact congrArg GroupedBlock.mk (Nat.add_zero _).symm
        · by_cases hjn2 : j = n - 16
          · subst hjn2
            rw [agetD_set_other _ _ _ _ _ (by omega)]
            rw [agetD_set_same _ _ _ _ (by omega)]
            rw [ht4]
            unfold p2rec
            rw [if_neg (by omega : ¬ ((n - 16) % 16 ≠ 15))]
            by_cases h2 : 2 ≤ n / 16 % 16
            · rw [if_pos (⟨by omega, by omega⟩ :
                (n - 16 < n + 1 ∧ 1 ≤ (n - 16) / 16 % 16))]
              rw [if_pos (⟨by omega, by omega⟩ :
                (n - 16 + 16 < n + 1 ∧ (n - 16) / 16 % 16 ≤ 14))]
              have e : ((n - 16) / 16 % 16 + 1) % 16 = n / 16 % 16 := by omega
              rw [e]
            · rw [if_neg (by omega : ¬ (n - 16 < n + 1 ∧ 1 ≤ (n - 16) / 16 % 16))]
              rw [if_pos (⟨by omega, by omega⟩ :
                (n - 16 + 16 < n + 1 ∧ (n - 16) / 16 % 16 ≤ 14))]
              have h1 : n / 16 % 16 = 1 := by omega
              rw [h1]
          · rw [agetD_set_other _ _ _ _ _ (by omega)]
            rw [agetD_set_other _ _ _ _ _ (by omega)]
            rw [hrec j hj]
            refine p2rec_congr n (n + 1) j (fun h15 => ?_) (fun h15 => ?_) <;> omega
      · -- current record was absorbed in Pass 1: skipped
        have hym : n % 16 ≤ 14 := by
          unfold cellY at hy
          omega
        have hidx : cellX n * 256 + cellZ n * 16 + cellY n = n :=
          cell_recompose n hn4
        have hcur : ((pass2Upto bl (pass1 (fun _ _ _ => b)).2 n).getD n
            default).is_in_group = true := by
          rw [hrec n hn4]
          unfold p2rec
          rw [if_pos (by omega : n % 16 ≠ 15)]
          exact p2_absorbed_facts (n % 16) hym
        have hskip : pass2Cell bl (pass2Upto bl (pass1 (fun _ _ _ => b)).2 n)
            (cellX n) (cellZ n) (cellY n)
            = pass2Upto bl (pass1 (fun _ _ _ => b)).2 n := by
          simp only [pass2Cell]
          rw [if_neg hz, hidx, hcur]
          simp only [if_true]
        rw [hskip, hrec j hj]
        refine p2rec_congr n (n + 1) j (fun h15 => ?_) (fun h15 => ?_) <;> omega

/-- Closed-form record after `n` steps of Pass 3 on the uniform section:
records off the column tops keep their Pass-1 shape; column tops off the
z-row end keep their Pass-2 shape (absorbed); tops of full z-rows
(`j % 256 = 255`) accumulate the x-extent and are absorbed by the next row. -/
def p3rec (n j : Nat) : GroupedBlock :=
  if j % 16 ≠ 15 then ⟨0x3F000101 + (j % 16 + 1) * 16 + 0x40000000⟩
  else if j / 16 % 16 ≠ 15 then
    ⟨0x3F000100 + (if 1 ≤ j / 16 % 16 then (j / 16 % 16 + 1) % 16 else 1)
      + 0x40000000⟩
  else ⟨0x3F000000 +
    (if j < n ∧ 1 ≤ j / 256 then (j / 256 + 1) % 16 * 256 else 256) +
    (if j + 256 < n ∧ j / 256 ≤ 14 then 0x40000000 else 0)⟩

lemma p3rec_congr (n m j : Nat)
    (hxs : j % 256 = 255 →
      ((j < n ∧ 1 ≤ j / 256) ↔ (j < m ∧ 1 ≤ j / 256)))
    (htg : j % 256 = 255 →
      ((j + 256 < n ∧ j / 256 ≤ 14) ↔ (j + 256 < m ∧ j / 256 ≤ 14))) :
    p3rec n j = p3rec m j := by
  unfold p3rec
  by_cases h15 : j % 16 = 15
  · have hg1 : ¬ (j % 16 ≠ 15) := by omega
    by_cases hz : j / 16 % 16 = 15
    · have hg2 : ¬ (j / 16 % 16 ≠ 15) := by omega
      have h255 : j % 256 = 255 := by omega
      simp only [if_neg hg1, if_neg hg2]
      rw [if_congr (hxs h255) rfl rfl, if_congr (htg h255) rfl rfl]
    · have hg2 : j / 16 % 16 ≠ 15 := hz
      simp only [if_neg hg1, if_pos hg2]
  · have hg1 : j % 16 ≠ 15 := h15
    simp only [if_pos hg1]

lemma p2rec_eq_p3rec_zero (j : Nat) (hj : j < 4096) :
    p2rec 4096 j = p3rec 0 j := by
  unfold p2rec p3rec
  by_cases h15 : j % 16 = 15
  · by_cases hz : j / 16 % 16 = 15
    · rw [if_neg (by omega : ¬ (j % 16 ≠ 15)),
        if_neg (by omega : ¬ (j % 16 ≠ 15)),
        if_neg (by omega : ¬ (j / 16 % 16 ≠ 15))]
      rw [if_pos (⟨hj, by omega⟩ : (j < 4096 ∧ 1 ≤ j / 16 % 16))]
      rw [if_neg (by omega : ¬ (j + 16 < 4096 ∧ j / 16 % 16 ≤ 14))]
      rw [if_neg (by omega : ¬ (j < 0 ∧ 1 ≤ j / 256))]
      rw [if_neg (by omega : ¬ (j + 256 < 0 ∧ j / 256 ≤ 14))]
      have e : (j / 16 % 16 + 1) % 16 = 0 := by omega
      rw [e]
    · rw [if_neg (by omega : ¬ (j % 16 ≠ 15)),
        if_neg (by omega : ¬ (j % 16 ≠ 15)),
        if_pos (by omega : j / 16 % 16 ≠ 15)]
      rw [if_pos (⟨by omega, by omega⟩ : (j + 16 < 4096 ∧ j / 16 % 16 ≤ 14))]
      rw [if_congr
        (show (j < 4096 ∧ 1 ≤ j / 16 % 16) ↔ (1 ≤ j / 16 % 16) from
          ⟨fun h => h.2, fun h => ⟨hj, h⟩⟩) rfl rfl]
  · rw [if_pos (by omega : j % 16 ≠ 15), if_pos (by omega : j % 16 ≠ 15)]

/-- An absorbed Pass-2 column-top record is flagged, for any stored z-extent. -/
lemma p3_absorbed_mid_facts (m : Nat) (h1 : 1 ≤ m) (h2 : m ≤ 15) :
    (⟨0x3F000100 + m + 0x40000000⟩ : GroupedBlock).is_in_group = true := by
  interval_cases m <;> decide

/-- A pending z-row-end record with stored x-extent `x ∈ [1,15]`. -/
lemma p3_top_facts (x : Nat) (h1 : 1 ≤ x) (h2 : x ≤ 15) :
    (⟨0x3F000000 + x * 256⟩ : GroupedBlock).is_in_group = false ∧
    (⟨0x3F000000 + x * 256⟩ : GroupedBlock).extentY = 16 ∧
    (⟨0x3F000000 + x * 256⟩ : GroupedBlock).extentZ = 16 ∧
    (⟨0x3F000000 + x * 256⟩ : GroupedBlock).block_id = 0 ∧
    (⟨0x3F000000 + x * 256⟩ : GroupedBlock).extentX = x ∧
    (⟨0x3F000000 + x * 256⟩ : GroupedBlock).toggle_group
      = ⟨0x3F000000 + x * 256 + 0x40000000⟩ := by
  interval_cases x <;>
    exact ⟨by decide, by decide, by decide, by decide, by decide, by decide⟩

/-- The current record at a merging Pass 3 step, and its extension. -/
lemma p3_cur_facts (x : Nat) (h1 : 1 ≤ x) (h2 : x ≤ 15) :
    (⟨0x3F000100⟩ : GroupedBlock).is_in_group = false ∧
    (⟨0x3F000100⟩ : GroupedBlock).extentY = 16 ∧
    (⟨0x3F000100⟩ : GroupedBlock).extentZ = 16 ∧
    (⟨0x3F000100⟩ : GroupedBlock).block_id = 0 ∧
    (⟨0x3F000100⟩ : GroupedBlock).extentX = 1 ∧
    (⟨0x3F000100⟩ : GroupedBlock).extend_to (1 + x) 16 16
      = ⟨0x3F000000 + (x + 1) % 16 * 256⟩ := by
  interval_cases x <;>
    exact ⟨by decide, by decide, by decide, by decide, by decide, by decide⟩

/-- Closed form of Pass 3 on the uniform section. -/
lemma pass3_uniform (b : Block) (bl : Array Block) (n : Nat) (hn : n ≤ 4096) :
    (pass3Upto bl (pass2 bl (pass1 (fun _ _ _ => b)).2) n).size = 4096 ∧
    ∀ j, j < 4096 →
      (pass3Upto bl (pass2 bl (pass1 (fun _ _ _ => b)).2) n).getD j default
        = p3rec n j := by
  induction n with
  | zero =>
    obtain ⟨hsz, hrec⟩ := pass2_uniform b bl 4096 (Nat.le_refl _)
    rw [pass3Upto_zero]
    unfold pass2
    exact ⟨hsz, fun j hj => by rw [hrec j hj, p2rec_eq_p3rec_zero j hj]⟩
  | succ n ih =>
    have hn' : n ≤ 4096 := by omega
    have hn4 : n < 4096 := by omega
    obtain ⟨hsz, hrec⟩ := ih hn'
    rw [pass3Upto_succ]
    constructor
    · rw [pass3Cell_size]
      exact hsz
    intro j hj
    by_cases hx : cellX n = 0
    · have hskip : pass3Cell bl
          (pass3Upto bl (pass2 bl (pass1 (fun _ _ _ => b)).2) n)
          (cellX n) (cellZ n) (cellY n)
          = pass3Upto bl (pass2 bl (pass1 (fun _ _ _ => b)).2) n := by
        simp only [pass3Cell]
        rw [if_pos hx]
      rw [hskip, hrec j hj]
      unfold cellX at hx
      refine p3rec_congr n (n + 1) j (fun h255 => ?_) (fun h255 => ?_) <;> omega
    · have hx1 : 1 ≤ n / 256 := by
        unfold cellX at hx
        omega
      have hx15 : n / 256 ≤ 15 := by omega
      have hidx : cellX n * 256 + cellZ n * 16 + cellY n = n :=
        cell_recompose n hn4
      by_cases h255 : n % 256 = 255
      · -- the merging step at a z-row end
        have hyv : n % 16 = 15 := by omega
        have hzv : n / 16 % 16 = 15 := by omega
        have hn256 : 256 ≤ n := by omega
        have hnb255 : (n - 256) % 256 = 255 := by omega
        have hnbx : (n - 256) / 256 = n / 256 - 1 := by omega
        have hcur : (pass3Upto bl (pass2 bl (pass1 (fun _ _ _ => b)).2) n).getD
            n default = ⟨0x3F000100⟩ := by
          rw [hrec n hn4]
          unfold p3rec
          rw [if_neg (by omega : ¬ (n % 16 ≠ 15))]
          rw [if_neg (by omega : ¬ (n / 16 % 16 ≠ 15))]
          rw [if_neg (by omega : ¬ (n < n ∧ 1 ≤ n / 256))]
          rw [if_neg (by omega : ¬ (n + 256 < n ∧ n / 256 ≤ 14))]
        have hnb : (pass3Upto bl (pass2 bl (pass1 (fun _ _ _ => b)).2) n).getD
            (n - 256) default = ⟨0x3F000000 + n / 256 * 256⟩ := by
          rw [hrec (n - 256) (by omega)]
          unfold p3rec
          rw [if_neg (by omega : ¬ ((n - 256) % 16 ≠ 15))]
          rw [if_neg (by omega : ¬ ((n - 256) / 16 % 16 ≠ 15))]
          by_cases h2 : 2 ≤ n / 256
          · rw [if_pos (⟨by omega, by omega⟩ :
              (n - 256 < n ∧ 1 ≤ (n - 256) / 256))]
            rw [if_neg (by omega :
              ¬ (n - 256 + 256 < n ∧ (n - 256) / 256 ≤ 14))]
            have e : ((n - 256) / 256 + 1) % 16 = n / 256 := by omega
            rw [e, Nat.add_zero]
          · rw [if_neg (by omega : ¬ (n - 256 < n ∧ 1 ≤ (n - 256) / 256))]
            rw [if_neg (by omega :
              ¬ (n - 256 + 256 < n ∧ (n - 256) / 256 ≤ 14))]
            have h1 : n / 256 = 1 := by omega
            rw [Nat.add_zero, h1]
        obtain ⟨ht1, ht2, ht3, ht4, ht5, ht6⟩ := p3_top_facts (n / 256) hx1 hx15
        obtain ⟨hc1, hc2, hc3, hc4, hc5, hc6⟩ := p3_cur_facts (n / 256) hx1 hx15
        have hstep : pass3Cell bl
            (pass3Upto bl (pass2 bl (pass1 (fun _ _ _ => b)).2) n)
            (cellX n) (cellZ n) (cellY n)
            = ((pass3Upto bl (pass2 bl (pass1 (fun _ _ _ => b)).2) n).set!
                (n - 256)
                ((⟨0x3F000000 + n / 256 * 256⟩ : GroupedBlock).toggle_group)).set!
                n ((⟨0x3F000100⟩ : GroupedBlock).extend_to (1 + n / 256) 16 16) := by
          simp only [pass3Cell]
          rw [if_neg hx, hidx, hcur, hnb, hc1]
          simp only [Bool.false_eq_true, if_false]
          rw [ht1]
          simp only [Bool.false_eq_true, if_false]
          rw [hc2, ht2, hc3, ht3]
          simp only [beq_self_eq_true, Bool.and_self, if_true]
          rw [hc4, ht4]
          simp only [beq_self_eq_true, if_true]
          rw [agetD_set_same _ _ _ _ (by omega)]
          rw [ht6]
          have he : (⟨0x3F000000 + n / 256 * 256 + 0x40000000⟩ :
              GroupedBlock).extentX = n / 256 := by
            have h' := extentX_toggle_group
              (⟨0x3F000000 + n / 256 * 256⟩ : GroupedBlock)
            rw [ht6] at h'
            rw [h', ht5]
          rw [he, hc5]
        rw [hstep]
        by_cases hjn : j = n
        · subst hjn
          rw [agetD_set_same _ _ _ _ (by rw [asize_set]; omega)]
          rw [hc6]
          unfold p3rec
          rw [if_neg (by omega : ¬ (j % 16 ≠ 15))]
          rw [if_neg (by omega : ¬ (j / 16 % 16 ≠ 15))]
          rw [if_pos (⟨by omega, hx1⟩ : (j < j + 1 ∧ 1 ≤ j / 256))]
          rw [if_neg (by omega : ¬ (j + 256 < j + 1 ∧ j / 256 ≤ 14))]
          exact congrArg GroupedBlock.mk (Nat.add_zero _).symm
        · by_cases hjn2 : j = n - 256
          · rw [hjn2]
            rw [agetD_set_other _ _ _ _ _ (by omega)]
            rw [agetD_set_same _ _ _ _ (by omega)]
            rw [ht6]
            unfold p3rec
            rw [if_neg (by omega : ¬ ((n - 256) % 16 ≠ 15))]
            rw [if_neg (by omega : ¬ ((n - 256) / 16 % 16 ≠ 15))]
            by_cases h2 : 2 ≤ n / 256
            · rw [if_pos (⟨by omega, by omega⟩ :
                (n - 256 < n + 1 ∧ 1 ≤ (n - 256) / 256))]
              rw [if_pos (⟨by omega, by omega⟩ :
                (n - 256 + 256 < n + 1 ∧ (n - 256) / 256 ≤ 14))]
              have e : ((n - 256) / 256 + 1) % 16 = n / 256 := by omega
              rw [e]
            · rw [if_neg (by omega :
                ¬ (n - 256 < n + 1 ∧ 1 ≤ (n - 256) / 256))]
              rw [if_pos (⟨by omega, by omega⟩ :
                (n - 256 + 256 < n + 1 ∧ (n - 256) / 256 ≤ 14))]
              have h1 : n / 256 = 1 := by omega
              rw [h1]
          · rw [agetD_set_other _ _ _ _ _ (by omega)]
            rw [agetD_set_other _ _ _ _ _ (by omega)]
            rw [hrec j hj]
            refine p3rec_congr n (n + 1) j (fun h2 => ?_) (fun h2 => ?_) <;> omega
      · -- current record was absorbed earlier: skipped
        have hcur : ((pass3Upto bl (pass2 bl (pass1 (fun _ _ _ => b)).2) n).getD
            n default).is_in_group = true := by
          rw [hrec n hn4]
          unfold p3rec
          by_cases hy : n % 16 = 15
          · have hzm : n / 16 % 16 ≤ 14 := by omega
            rw [if_neg (by omega : ¬ (n % 16 ≠ 15))]
            rw [if_pos (by omega : n / 16 % 16 ≠ 15)]
            by_cases hz1 : 1 ≤ n / 16 % 16
            · rw [if_pos hz1]
              exact p3_absorbed_mid_facts ((n / 16 % 16 + 1) % 16)
                (by omega) (by omega)
            · rw [if_neg hz1]
              exact p3_absorbed_mid_facts 1 (by omega) (by omega)
          · rw [if_pos (by omega : n % 16 ≠ 15)]
            exact p2_absorbed_facts (n % 16) (by omega)
        have hskip : pass3Cell bl
            (pass3Upto bl (pass2 bl (pass1 (fun _ _ _ => b)).2) n)
            (cellX n) (cellZ n) (cellY n)
            = pass3Upto bl (pass2 bl (pass1 (fun _ _ _ => b)).2) n := by
          simp only [pass3Cell]
          rw [if_neg hx, hidx, hcur]
          simp only [if_true]
        rw [hskip, hrec j hj]
        refine p3rec_congr n (n + 1) j (fun h2 => ?_) (fun h2 => ?_) <;> omega

/-- Any non-final record of the completed three-pass run is absorbed:
z-row-end records with stored x-extent `k ∈ [1,15]` and the flag set. -/
lemma p3_final_absorbed_x (k : Nat) (h1 : 1 ≤ k) (h2 : k ≤ 15) :
    (⟨0x3F000000 + k * 256 + 0x40000000⟩ : GroupedBlock).is_in_group = true := by
  interval_cases k <;> decide

/-- After the full Pass 3, every record except the one at flat index 4095 is
absorbed. -/
lemma p3rec_final_group (j : Nat) (hj : j < 4096) (hne : j ≠ 4095) :
    (p3rec 4096 j).is_in_group = true := by
  unfold p3rec
  by_cases h15 : j % 16 = 15
  · by_cases hz : j / 16 % 16 = 15
    · have h255 : j % 256 = 255 := by omega
      have hx14 : j / 256 ≤ 14 := by omega
      rw [if_neg (by omega : ¬ (j % 16 ≠ 15)),
        if_neg (by omega : ¬ (j / 16 % 16 ≠ 15))]
      rw [if_pos (⟨by omega, hx14⟩ : (j + 256 < 4096 ∧ j / 256 ≤ 14))]
      by_cases h1 : 1 ≤ j / 256
      · rw [if_pos (⟨hj, h1⟩ : (j < 4096 ∧ 1 ≤ j / 256))]
        have e : (j / 256 + 1) % 16 = j / 256 + 1 := by omega
        rw [e]
        exact p3_final_absorbed_x (j / 256 + 1) (by omega) (by omega)
      · rw [if_neg (by omega : ¬ (j < 4096 ∧ 1 ≤ j / 256))]
        decide
    · rw [if_neg (by omega : ¬ (j % 16 ≠ 15)),
        if_pos (by omega : j / 16 % 16 ≠ 15)]
      by_cases hz1 : 1 ≤ j / 16 % 16
      · rw [if_pos hz1]
        exact p3_absorbed_mid_facts ((j / 16 % 16 + 1) % 16) (by omega) (by omega)
      · rw [if_neg hz1]
        exact p3_absorbed_mid_facts 1 (by omega) (by omega)
  · rw [if_pos (by omega : j % 16 ≠ 15)]
    exact p2_absorbed_facts (j % 16) (by omega)

lemma toList_eq_map_getD {α : Type} (g : Array α) (d : α) :
    g.toList = (List.range g.size).map (fun j => g.getD j d) := by
  apply List.ext_getElem
  · simp
  · intro i h1 h2
    have hi : i < g.size := by simpa using h1
    rw [List.getElem_map]
    rw [Array.getElem_toList h1]
    simp only [List.getElem_range]
    rw [agetD_lt g i d hi]
    rfl

/-- `survivors` as a fold over the flat indices. -/
lemma survivors_eq_range (g : Array GroupedBlock) :
    survivors g = (List.range g.size).foldl
      (fun n j => if (g.getD j default).is_in_group then n else n + 1) 0 := by
  unfold survivors
  rw [Array.foldl_eq_foldl_toList]
  rw [toList_eq_map_getD g default]
  rw [List.foldl_map]

lemma foldl_count_congr (p q : Nat → Bool) :
    ∀ (l : List Nat) (n0 : Nat), (∀ j ∈ l, p j = q j) →
    l.foldl (fun n j => if p j then n else n + 1) n0
      = l.foldl (fun n j => if q j then n else n + 1) n0 := by
  intro l
  induction l with
  | nil =>
    intro n0 h
    rfl
  | cons x xs ih =>
    intro n0 h
    simp only [List.foldl_cons]
    rw [h x (List.mem_cons_self x xs)]
    exact ih _ (fun j hj => h j (List.mem_cons_of_mem x hj))

/-- Counting the indices failing a predicate that fails exactly at `a`. -/
lemma range_count_aux (p : Nat → Bool) (a : Nat)
    (hp : ∀ j, p j = false ↔ j = a) :
    ∀ N, (List.range N).foldl (fun n j => if p j then n else n + 1) 0
      = if a < N then 1 else 0 := by
  intro N
  induction N with
  | zero =>
    rw [if_neg (by omega)]
    rfl
  | succ N ih =>
    rw [List.range_succ, List.foldl_append, ih]
    simp only [List.foldl_cons, List.foldl_nil]
    by_cases hNa : N = a
    · subst hNa
      rw [(hp N).mpr rfl]
      rw [if_neg (by decide : ¬ ((false : Bool) = true))]
      rw [if_neg (by omega : ¬ (N < N)), if_pos (by omega : N < N + 1)]
    · have hpN : p N = true := by
        cases hb : p N
        · exact absurd ((hp N).mp hb) hNa
        · rfl
      rw [hpN, if_pos rfl]
      by_cases haN : a < N
      · rw [if_pos haN, if_pos (by omega)]
      · rw [if_neg haN, if_neg (by omega)]

/-- The finalized records of the uniform section follow the closed form. -/
lemma final_state_uniform (b : Block) :
    (intrasectionGroups (fun _ _ _ => b)).2.size = 4096 ∧
    ∀ j, j < 4096 →
      (intrasectionGroups (fun _ _ _ => b)).2.getD j default = p3rec 4096 j := by
  simp only [intrasectionGroups]
  exact pass3_uniform b (pass1 (fun _ _ _ => b)).1 4096 (Nat.le_refl _)

/-- C1: for a 16x16x16 section in which every cell holds the same opaque
(nonzero-id) voxel, the full three-pass merge of `intrasection_cull` leaves
exactly one record with the merged/absorbed flag clear — the record at flat
index 4095 — and that record decodes to extent (16,16,16) with all six faces
enabled. -/
theorem uniform_section_fully_merges (b : Block) (hb : b.id ≠ 0) :
    survivors (intrasectionGroups (fun _ _ _ => b)).2 = 1 ∧
    (∀ j, j < 4096 →
      ((((intrasectionGroups (fun _ _ _ => b)).2.getD j default).is_in_group
        = false) ↔ j = 4095)) ∧
    ((intrasectionGroups (fun _ _ _ => b)).2.getD 4095 default).extentX = 16 ∧
    ((intrasectionGroups (fun _ _ _ => b)).2.getD 4095 default).extentY = 16 ∧
    ((intrasectionGroups (fun _ _ _ => b)).2.getD 4095 default).extentZ = 16 ∧
    ((intrasectionGroups (fun _ _ _ => b)).2.getD 4095 default).faces
      = Face.all := by
  obtain ⟨hsz, hrec⟩ := final_state_uniform b
  have h4095 : p3rec 4096 4095 = (⟨0x3F000000⟩ : GroupedBlock) := by decide
  have hiff : ∀ j, j < 4096 →
      ((((intrasectionGroups (fun _ _ _ => b)).2.getD j default).is_in_group
        = false) ↔ j = 4095) := by
    intro j hj
    constructor
    · intro h
      by_contra hne
      rw [hrec j hj, p3rec_final_group j hj hne] at h
      exact absurd h (by decide)
    · intro h
      subst h
      rw [hrec 4095 (by omega), h4095]
      decide
  have hagree : ∀ j ∈ List.range 4096,
      (((intrasectionGroups (fun _ _ _ => b)).2.getD j default)).is_in_group
        = decide (j ≠ 4095) := by
    intro j hjmem
    have hj : j < 4096 := List.mem_range.mp hjmem
    cases hb2 :
        (((intrasectionGroups (fun _ _ _ => b)).2.getD j default)).is_in_group
    · have hj45 : j = 4095 := (hiff j hj).mp hb2
      subst hj45
      simp
    · have hne : j ≠ 4095 := by
        intro he
        have hf := (hiff j hj).mpr he
        rw [hb2] at hf
        exact absurd hf (by decide)
      simp [hne]
  have hsur : survivors (intrasectionGroups (fun _ _ _ => b)).2 = 1 := by
    have h1 := survivors_eq_range (intrasectionGroups (fun _ _ _ => b)).2
    rw [hsz] at h1
    have h2 := foldl_count_congr
      (fun j => (((intrasectionGroups (fun _ _ _ => b)).2.getD j default)).is_in_group)
      (fun j => decide (j ≠ 4095)) (List.range 4096) 0 hagree
    have h3 := range_count_aux (fun j => decide (j ≠ 4095)) 4095
      (fun j => by simp) 4096
    have h4 : (if 4095 < 4096 then 1 else 0 : Nat) = 1 := by norm_num
    exact h1.trans (h2.trans (h3.trans h4))
  refine ⟨hsur, hiff, ?_, ?_, ?_, ?_⟩ <;> rw [hrec 4095 (by omega), h4095] <;> decide

/-- C1 witness: the uniform section of the opaque block (id 1, data 0). -/
theorem uniform_section_fully_merges_witness :
    (⟨1, 0⟩ : Block).id ≠ 0 ∧
    (survivors (intrasectionGroups (fun _ _ _ => (⟨1, 0⟩ : Block))).2 = 1 ∧
    (∀ j, j < 4096 →
      ((((intrasectionGroups (fun _ _ _ => (⟨1, 0⟩ : Block))).2.getD j
          default).is_in_group = false) ↔ j = 4095)) ∧
    ((intrasectionGroups (fun _ _ _ => (⟨1, 0⟩ : Block))).2.getD 4095
      default).extentX = 16 ∧
    ((intrasectionGroups (fun _ _ _ => (⟨1, 0⟩ : Block))).2.getD 4095
      default).extentY = 16 ∧
    ((intrasectionGroups (fun _ _ _ => (⟨1, 0⟩ : Block))).2.getD 4095
      default).extentZ = 16 ∧
    ((intrasectionGroups (fun _ _ _ => (⟨1, 0⟩ : Block))).2.getD 4095
      default).faces = Face.all) :=
  ⟨by decide, uniform_section_fully_merges ⟨1, 0⟩ (by decide)⟩
